import Mathlib

/-!
Verification development for the TMS cascade tender orchestration engine.

The definitions below are a shallow embedding of the tender/offer services:
`TendersService` (apps/api/src/modules/tenders/tenders.service.ts),
the simple variant (tenders-simple.service.ts), `TenderOffersService`,
`CascadeTenderService` and `PartyGraphService.getCarriersByTier`.
Persistent rows become list-backed tables in a `DB` record; Prisma
`update`/`updateMany` calls become pure maps over those lists; timestamps
are natural numbers; each thrown `NotFoundException` / `BadRequestException`
becomes an explicit error value carrying the source's message string.
-/

namespace TMS

inductive TenderStatus
  | DRAFT | OPEN | CLOSED | AWARDED | CANCELLED
deriving DecidableEq

inductive OfferStatus
  | PENDING | SUBMITTED | ACCEPTED | REJECTED | WITHDRAWN
deriving DecidableEq

inductive TenderMode
  | SEQUENTIAL | PARALLEL
deriving DecidableEq

inductive RelationType
  | BROKER_CARRIER | CARRIER_DRIVER | SHIPPER_BROKER
deriving DecidableEq

inductive RelationStatus
  | ACTIVE | INACTIVE | SUSPENDED
deriving DecidableEq

/-- Tender row (table `Tender`): id, orderId, optional shipmentId, status,
mode, tier, optional parentTenderId, offerDeadline. The display number and
metadata are irrelevant to the verified behaviour and omitted. -/
structure Tender where
  id : Nat
  orderId : Nat
  shipmentId : Option Nat
  status : TenderStatus
  mode : TenderMode
  tier : Nat
  parentTenderId : Option Nat
  offerDeadline : Nat
deriving DecidableEq

/-- TenderOffer row (table `TenderOffer`). -/
structure Offer where
  id : Nat
  tenderId : Nat
  carrierId : Nat
  status : OfferStatus
  priceAmount : Int
  priceCurrency : String
  validUntil : Nat
  submittedAt : Option Nat
deriving DecidableEq

/-- Shipment row, restricted to the field the award unit touches. -/
structure Shipment where
  id : Nat
  assignedCarrierId : Option Nat
deriving DecidableEq

/-- PartyRelation row (broker/carrier graph edge). -/
structure PartyRelation where
  fromPartyId : Nat
  toPartyId : Nat
  relationType : RelationType
  status : RelationStatus
  tier : Nat
deriving DecidableEq

/-- The persistent store: one list per table, plus the set of known order
ids and party ids, and a fresh-id counter for created rows. -/
structure DB where
  tenders : List Tender
  offers : List Offer
  shipments : List Shipment
  orders : List Nat
  parties : List Nat
  relations : List PartyRelation
  nextId : Nat
deriving DecidableEq

/-- Error taxonomy: `NotFoundException` and `BadRequestException`, with the
message string thrown by the source. -/
inductive TErr
  | notFound (msg : String)
  | badRequest (msg : String)
deriving DecidableEq

def DB.findTender (db : DB) (id : Nat) : Option Tender :=
  db.tenders.find? (fun t => t.id == id)

def DB.findOffer (db : DB) (id : Nat) : Option Offer :=
  db.offers.find? (fun o => o.id == id)

/-- The offers owned by one tender (the `offers` include on a tender). -/
def DB.offersOf (db : DB) (tenderId : Nat) : List Offer :=
  db.offers.filter (fun o => o.tenderId == tenderId)

/-- `prisma.tender.update` on a found row: rewrite every row with that id. -/
def DB.updateTender (db : DB) (id : Nat) (f : Tender → Tender) : DB :=
  { db with tenders := db.tenders.map (fun t => if t.id == id then f t else t) }

def DB.updateOffer (db : DB) (id : Nat) (f : Offer → Offer) : DB :=
  { db with offers := db.offers.map (fun o => if o.id == id then f o else o) }

/-- `prisma.tenderOffer.updateMany` with a row predicate. -/
def DB.updateOffersWhere (db : DB) (p : Offer → Bool) (f : Offer → Offer) : DB :=
  { db with offers := db.offers.map (fun o => if p o then f o else o) }

def DB.updateShipment (db : DB) (id : Nat) (f : Shipment → Shipment) : DB :=
  { db with shipments := db.shipments.map (fun s => if s.id == id then f s else s) }

/-- `TendersService.open`: DRAFT → OPEN, otherwise rejected. -/
def openTender (db : DB) (id : Nat) : Except TErr DB :=
  match db.findTender id with
  | none => .error (.notFound "Tender not found")
  | some t =>
    if t.status = .DRAFT then
      .ok (db.updateTender id (fun u => { u with status := .OPEN }))
    else .error (.badRequest "Only DRAFT tenders can be opened")

/-- `TendersService.close`: OPEN → CLOSED, otherwise rejected; the emitted
TENDER_CLOSED event is consumed by `handleTenderClosed` below. -/
def closeTender (db : DB) (id : Nat) : Except TErr DB :=
  match db.findTender id with
  | none => .error (.notFound "Tender not found")
  | some t =>
    if t.status = .OPEN then
      .ok (db.updateTender id (fun u => { u with status := .CLOSED }))
    else .error (.badRequest "Only OPEN tenders can be closed")

/-- `TendersService.cancel`: the source updates the row to CANCELLED with no
status precondition at all; only a missing row fails (Prisma P2025). -/
def cancelTender (db : DB) (id : Nat) : Except TErr DB :=
  match db.findTender id with
  | none => .error (.notFound "Tender not found")
  | some _ => .ok (db.updateTender id (fun u => { u with status := .CANCELLED }))

/-- Payload of a submission (SubmitOfferDto). -/
structure SubmitOfferDto where
  priceAmount : Int
  priceCurrency : String
  validUntil : Nat
deriving DecidableEq

/-- `TenderOffersService.submitOffer` (identical check order in the simple
service): tender must exist, be OPEN, deadline not passed, the carrier must
hold a pre-provisioned offer, and that offer must still be PENDING. -/
def submitOffer (db : DB) (now tenderId carrierId : Nat)
    (dto : SubmitOfferDto) : Except TErr DB :=
  match db.findTender tenderId with
  | none => .error (.notFound "Tender not found")
  | some tender =>
    if tender.status ≠ .OPEN then
      .error (.badRequest "Tender is not open for offers")
    else if tender.offerDeadline < now then
      .error (.badRequest "Tender offer deadline has passed")
    else
      match db.offers.find? (fun o => o.tenderId == tenderId && o.carrierId == carrierId) with
      | none => .error (.badRequest "Carrier is not invited to this tender")
      | some existing =>
        if existing.status ≠ .PENDING then
          .error (.badRequest "Offer has already been submitted")
        else
          .ok (db.updateOffer existing.id (fun o =>
            { o with status := .SUBMITTED,
                     priceAmount := dto.priceAmount,
                     priceCurrency := dto.priceCurrency,
                     validUntil := dto.validUntil,
                     submittedAt := some now }))

/-- `TenderOffersService.acceptOffer`: SUBMITTED → ACCEPTED on one offer;
nothing else is touched. -/
def acceptOffer (db : DB) (offerId : Nat) : Except TErr DB :=
  match db.findOffer offerId with
  | none => .error (.notFound "Offer not found")
  | some o =>
    if o.status ≠ .SUBMITTED then
      .error (.badRequest "Only submitted offers can be accepted")
    else .ok (db.updateOffer offerId (fun u => { u with status := .ACCEPTED }))

/-- `TenderOffersService.rejectOffer`: SUBMITTED → REJECTED on one offer. -/
def rejectOffer (db : DB) (offerId : Nat) : Except TErr DB :=
  match db.findOffer offerId with
  | none => .error (.notFound "Offer not found")
  | some o =>
    if o.status ≠ .SUBMITTED then
      .error (.badRequest "Only submitted offers can be rejected")
    else .ok (db.updateOffer offerId (fun u => { u with status := .REJECTED }))

/-- `TenderOffersService.withdrawOffer`: the first SUBMITTED offer of the
carrier on the tender goes to WITHDRAWN. -/
def withdrawOffer (db : DB) (tenderId carrierId : Nat) : Except TErr DB :=
  match db.offers.find? (fun o =>
      o.tenderId == tenderId && o.carrierId == carrierId && o.status == .SUBMITTED) with
  | none => .error (.notFound "No submitted offer found")
  | some o => .ok (db.updateOffer o.id (fun u => { u with status := .WITHDRAWN }))

/-- Infrastructure-failure switches for one `award` call: `txnFail` aborts
the `$transaction` as a whole (all three row updates roll back together);
`shipFail` makes the separate, post-transaction `shipment.update` throw. -/
structure AwardFaults where
  txnFail : Bool
  shipFail : Bool
deriving DecidableEq

def noFaults : AwardFaults := ⟨false, false⟩

/-- The body of the award `$transaction`, in source order: tender → AWARDED,
winning offer → ACCEPTED, every other still-SUBMITTED offer of the tender
→ REJECTED. -/
def applyAwardTxn (db : DB) (tenderId offerId : Nat) : DB :=
  let db1 := db.updateTender tenderId (fun t => { t with status := .AWARDED })
  let db2 := db1.updateOffer offerId (fun o => { o with status := .ACCEPTED })
  db2.updateOffersWhere
    (fun o => o.tenderId == tenderId && o.id != offerId && o.status == .SUBMITTED)
    (fun o => { o with status := .REJECTED })

/-- `TendersService.award` / `awardTender`: precondition checks, the
transaction, then — outside the transaction — the shipment carrier
assignment when the tender carries a shipmentId. Returns the resulting
store together with the error, if any, surfaced to the caller. -/
def award (db : DB) (tenderId offerId : Nat) (faults : AwardFaults) :
    DB × Option TErr :=
  match db.findTender tenderId with
  | none => (db, some (.notFound "Tender not found"))
  | some tender =>
    if tender.status ≠ .CLOSED then
      (db, some (.badRequest "Only CLOSED tenders can be awarded"))
    else
      match (db.offersOf tenderId).find? (fun o => o.id == offerId) with
      | none => (db, some (.notFound "Offer not found in this tender"))
      | some offer =>
        if offer.status ≠ .SUBMITTED then
          (db, some (.badRequest "Only SUBMITTED offers can be accepted"))
        else if faults.txnFail then
          (db, some (.badRequest "transaction failed"))
        else
          let db2 := applyAwardTxn db tenderId offerId
          match tender.shipmentId with
          | none => (db2, none)
          | some sid =>
            if faults.shipFail then
              (db2, some (.badRequest "shipment update failed"))
            else
              (db2.updateShipment sid
                (fun s => { s with assignedCarrierId := some offer.carrierId }), none)

/-- One tier of a broker's carrier network, as delivered by the tier
resolver. -/
structure TierCarriers where
  tier : Nat
  carriers : List Nat
deriving DecidableEq

/-- Insert a tier value into a strictly ascending list, dropping
duplicates: the pure counterpart of grouping by a JS Map and sorting the
entries ascending by tier. -/
def insertTier (n : Nat) : List Nat → List Nat
  | [] => [n]
  | m :: ms =>
    if n < m then n :: m :: ms
    else if n = m then m :: ms
    else m :: insertTier n ms

def sortedTiers (l : List Nat) : List Nat := l.foldr insertTier []

/-- The broker's active BROKER_CARRIER edges (the Prisma `findMany` filter
shared by `getCarriersByTier` and the simple `createCascade`). -/
def activeCarrierRelations (db : DB) (brokerId : Nat) : List PartyRelation :=
  db.relations.filter (fun r =>
    r.fromPartyId == brokerId && r.relationType == .BROKER_CARRIER && r.status == .ACTIVE)

/-- `PartyGraphService.getCarriersByTier`: group the broker's active
carrier edges by tier, ascending. The source consults no Party row, so an
unknown broker simply yields the empty grouping. -/
def getCarriersByTier (db : DB) (brokerId : Nat) : List TierCarriers :=
  let rels := activeCarrierRelations db brokerId
  (sortedTiers (rels.map (fun r => r.tier))).map (fun t =>
    { tier := t, carriers := (rels.filter (fun r => r.tier == t)).map (fun r => r.toPartyId) })

/-- One TierRequest of a cascade request. -/
structure TierRequest where
  tier : Nat
  carrierIds : List Nat
  offerDeadlineMinutes : Nat
deriving DecidableEq

structure CascadeRequest where
  orderId : Nat
  mode : TenderMode
  tiers : List TierRequest
deriving DecidableEq

/-- `CascadeTenderService.validateTierConfiguration`: every requested tier
must be present in the resolved carrier tiers, and a non-empty carrier
filter may name only carriers available at that tier; the first violation
is thrown. Returns the error that would be thrown, if any. -/
def validateTierConfiguration :
    List TierRequest → List TierCarriers → Option TErr
  | [], _ => none
  | tc :: rest, avail =>
    match avail.find? (fun ct => ct.tier == tc.tier) with
    | none => some (.badRequest "No carriers available at tier")
    | some available =>
      if 0 < tc.carrierIds.length then
        if (tc.carrierIds.filter (fun cid => !(available.carriers.contains cid))).length > 0 then
          some (.badRequest "Invalid carrier IDs for tier")
        else validateTierConfiguration rest avail
      else validateTierConfiguration rest avail

/-- Fresh PENDING offers for the invited carriers of a newly created
tender, with ids allocated from `nid` upward. -/
def mkPendingOffers (tenderId deadline : Nat) : Nat → List Nat → List Offer
  | _, [] => []
  | nid, c :: cs =>
    { id := nid, tenderId := tenderId, carrierId := c, status := .PENDING,
      priceAmount := 0, priceCurrency := "USD", validUntil := deadline,
      submittedAt := none } :: mkPendingOffers tenderId deadline (nid + 1) cs

/-- Insert one tender and its PENDING offers into the store. -/
def createTenderAndOffers (db : DB) (orderId : Nat) (mode : TenderMode)
    (status : TenderStatus) (tier : Nat) (parent : Option Nat)
    (deadline : Nat) (carriers : List Nat) : DB × Tender :=
  let t : Tender :=
    { id := db.nextId, orderId := orderId, shipmentId := none,
      status := status, mode := mode, tier := tier,
      parentTenderId := parent, offerDeadline := deadline }
  ({ db with
      tenders := db.tenders ++ [t],
      offers := db.offers ++ mkPendingOffers t.id deadline (db.nextId + 1) carriers,
      nextId := db.nextId + 1 + carriers.length }, t)

/-- Accumulator of the per-tier creation loops: the evolving store, the
`parentTenderId` local (reassigned only when a tier-0 tender is created),
and `createdTenders`. -/
structure CascadeState where
  db : DB
  parentTenderId : Option Nat
  created : List Tender
deriving DecidableEq

/-- One iteration of a cascade creation loop. `select` yields the eligible
carriers of the tier request (empty means the tier is skipped); `statusFor`
gives the initial status of the created tender. -/
def cascadeStep (select : DB → TierRequest → List Nat)
    (statusFor : TierRequest → TenderStatus) (mode : TenderMode)
    (orderId now : Nat) (st : CascadeState) (tc : TierRequest) : CascadeState :=
  let selected := select st.db tc
  if selected.isEmpty then st
  else
    let deadline := now + tc.offerDeadlineMinutes
    let pair := createTenderAndOffers st.db orderId mode (statusFor tc)
      tc.tier st.parentTenderId deadline selected
    { db := pair.1,
      parentTenderId := if tc.tier = 0 then some pair.2.id else st.parentTenderId,
      created := st.created ++ [pair.2] }

def cascadeLoop (select : DB → TierRequest → List Nat)
    (statusFor : TierRequest → TenderStatus) (mode : TenderMode)
    (orderId now : Nat) (db : DB) (tiers : List TierRequest) : CascadeState :=
  tiers.foldl (cascadeStep select statusFor mode orderId now)
    { db := db, parentTenderId := none, created := [] }

/-- Carrier selection of `CascadeTenderService`: look the tier up in the
resolved carrier tiers (a missing tier or an empty intersection with the
filter yields the empty selection, and the caller skips the tier). -/
def cascadeSelect (carrierTiers : List TierCarriers) (_db : DB)
    (tc : TierRequest) : List Nat :=
  match carrierTiers.find? (fun ct => ct.tier == tc.tier) with
  | none => []
  | some ct =>
    if 0 < tc.carrierIds.length then
      ct.carriers.filter (fun c => tc.carrierIds.contains c)
    else ct.carriers

/-- `CascadeTenderService.createSequentialTenders`: only a tier-0 tender is
created OPEN (`tier === 0 ? OPEN : DRAFT`); all others start DRAFT;
`parentTenderId` is the last previously created tier-0 tender. -/
def createSequentialTenders (db : DB) (now orderId : Nat)
    (tiers : List TierRequest) (carrierTiers : List TierCarriers) : CascadeState :=
  cascadeLoop (cascadeSelect carrierTiers)
    (fun tc => if tc.tier = 0 then .OPEN else .DRAFT)
    .SEQUENTIAL orderId now db tiers

/-- `CascadeTenderService.createParallelTenders`: every created tender is
OPEN; the concurrent creations are serialised in request order here. -/
def createParallelTenders (db : DB) (now orderId : Nat)
    (tiers : List TierRequest) (carrierTiers : List TierCarriers) : CascadeState :=
  cascadeLoop (cascadeSelect carrierTiers) (fun _ => .OPEN)
    .PARALLEL orderId now db tiers

structure CascadeResult where
  rootTenderId : Option Nat
  createdTenders : List Tender
  totalTiers : Nat
deriving DecidableEq

/-- `CascadeTenderService.createCascadeTenders`: order existence check,
tier resolution via the party graph, `validateTierConfiguration` (which
throws on a tier without carriers), then the per-mode creation loop. -/
def createCascadeTenders (db : DB) (now brokerId : Nat)
    (request : CascadeRequest) : Except TErr (DB × CascadeResult) :=
  if !(db.orders.contains request.orderId) then
    .error (.badRequest "Order not found")
  else
    let carrierTiers := getCarriersByTier db brokerId
    match validateTierConfiguration request.tiers carrierTiers with
    | some e => .error e
    | none =>
      let st :=
        match request.mode with
        | .SEQUENTIAL => createSequentialTenders db now request.orderId request.tiers carrierTiers
        | .PARALLEL => createParallelTenders db now request.orderId request.tiers carrierTiers
      .ok (st.db, { rootTenderId := (st.created.head?).map (fun t => t.id),
                    createdTenders := st.created,
                    totalTiers := st.created.length })

/-- Carrier selection of the simple `createCascade`: filter the broker's
active relations by the requested tier, then by the optional carrier-id
filter. -/
def simpleSelect (brokerId : Nat) (db : DB) (tc : TierRequest) : List Nat :=
  let atTier := (activeCarrierRelations db brokerId).filter (fun r => r.tier == tc.tier)
  let selected :=
    if 0 < tc.carrierIds.length then
      atTier.filter (fun r => tc.carrierIds.contains r.toPartyId)
    else atTier
  selected.map (fun r => r.toPartyId)

/-- `TendersService.createCascade` (tenders-simple.service.ts): no tier
validation — a tier with no eligible carriers is skipped with `continue`;
a tender is created OPEN when its tier is 0 or the mode is PARALLEL. -/
def createCascadeSimple (db : DB) (now brokerId : Nat)
    (request : CascadeRequest) : Except TErr (DB × CascadeResult) :=
  if !(db.orders.contains request.orderId) then
    .error (.badRequest "Order not found")
  else
    let st := cascadeLoop (simpleSelect brokerId)
      (fun tc => if tc.tier = 0 ∨ request.mode = .PARALLEL then .OPEN else .DRAFT)
      request.mode request.orderId now db request.tiers
    .ok (st.db, { rootTenderId := (st.created.head?).map (fun t => t.id),
                  createdTenders := st.created,
                  totalTiers := st.created.length })

/-- The TENDER_CLOSED domain event as delivered to a cascade trigger; it
carries the tender id and a snapshot of the status at emission time. -/
structure ClosedSignal where
  tenderId : Nat
  statusAtEmit : TenderStatus
deriving DecidableEq

/-- `CascadeTenderService.openNextTier`: unconditionally set the tender
OPEN (a missing row makes the background update throw, leaving the store
unchanged). -/
def openNextTier (db : DB) (tenderId : Nat) : DB :=
  db.updateTender tenderId (fun t => { t with status := .OPEN })

/-- The listener installed by `setupSequentialCascadeTriggers` for the
consecutive pair (`currentId`, `nextId`): on a TENDER_CLOSED signal for
`currentId`, re-read the tender and its offers from the store, and open the
next tier only if no offer is ACCEPTED and the tender is (still) CLOSED. -/
def handleTenderClosed (db : DB) (currentId nextId : Nat)
    (sig : ClosedSignal) : DB :=
  if sig.tenderId = currentId then
    match db.findTender currentId with
    | none => db
    | some t =>
      let hasAcceptedOffer := (db.offersOf currentId).any (fun o => o.status == .ACCEPTED)
      if !hasAcceptedOffer && t.status == .CLOSED then openNextTier db nextId
      else db
  else db

/-- The operations that can touch a cascade's tenders and offers after
creation: the lifecycle manager's mutators and the orchestrator's
closed-signal handler (`signalOp m sig` delivers `sig` to the listener of
the m-th consecutive pair of the cascade). Manual `open` is not among
them: the claim under proof speaks of openings by the orchestrator. -/
inductive Op where
  | closeOp (id : Nat)
  | cancelOp (id : Nat)
  | awardOp (tenderId offerId : Nat) (faults : AwardFaults)
  | submitOp (now tenderId carrierId : Nat) (dto : SubmitOfferDto)
  | acceptOp (offerId : Nat)
  | rejectOp (offerId : Nat)
  | withdrawOp (tenderId carrierId : Nat)
  | signalOp (m : Nat) (sig : ClosedSignal)
deriving DecidableEq

/-- An operation that throws leaves the store as it was. -/
def orKeep (db : DB) : Except TErr DB → DB
  | .ok db2 => db2
  | .error _ => db

def stepOp (cascadeIds : List Nat) (db : DB) : Op → DB
  | .closeOp id => orKeep db (closeTender db id)
  | .cancelOp id => orKeep db (cancelTender db id)
  | .awardOp tenderId offerId faults => (award db tenderId offerId faults).1
  | .submitOp now tenderId carrierId dto => orKeep db (submitOffer db now tenderId carrierId dto)
  | .acceptOp offerId => orKeep db (acceptOffer db offerId)
  | .rejectOp offerId => orKeep db (rejectOffer db offerId)
  | .withdrawOp tenderId carrierId => orKeep db (withdrawOffer db tenderId carrierId)
  | .signalOp m sig =>
    match cascadeIds.get? m, cascadeIds.get? (m + 1) with
    | some c, some n => handleTenderClosed db c n sig
    | _, _ => db

def runOps (cascadeIds : List Nat) (db : DB) (ops : List Op) : DB :=
  ops.foldl (stepOp cascadeIds) db

/-! Observation predicates used by the theorems. -/

/-- Every tender row with the given id carries the given status. -/
def tenderStatusIs (db : DB) (id : Nat) (s : TenderStatus) : Prop :=
  ∀ t ∈ db.tenders, t.id = id → t.status = s

/-- Every shipment row with the given id carries the given carrier
assignment. -/
def shipmentCarrierIs (db : DB) (id : Nat) (c : Option Nat) : Prop :=
  ∀ s ∈ db.shipments, s.id = id → s.assignedCarrierId = c

/-- Every tender row with the given id is DRAFT or CANCELLED — in
particular, the tender is not (and has never been observed) OPEN. -/
def dormant (db : DB) (id : Nat) : Prop :=
  ∀ t ∈ db.tenders, t.id = id → (t.status = .DRAFT ∨ t.status = .CANCELLED)

/-- Some offer of the tender is ACCEPTED. -/
def hasAccepted (db : DB) (tenderId : Nat) : Prop :=
  ∃ o ∈ db.offers, o.tenderId = tenderId ∧ o.status = .ACCEPTED

/-- The primary-key invariant of the `TenderOffer` table. -/
def offerIdsNodup (db : DB) : Prop :=
  (db.offers.map (fun o => o.id)).Nodup

/-- The unique index of `PartyRelation` on
(fromPartyId, toPartyId, relationType). -/
def relationsUnique (db : DB) : Prop :=
  db.relations.Pairwise (fun a b =>
    ¬(a.fromPartyId = b.fromPartyId ∧ a.toPartyId = b.toPartyId ∧
      a.relationType = b.relationType))

/-- The `parentTenderId` loop variable of the cascade creation loops: the
id of the most recently created tier-0 tender, if any. -/
def lastTier0 (l : List Tender) : Option Nat :=
  l.foldl (fun acc t => if t.tier = 0 then some t.id else acc) none

deriving instance DecidableEq for Except

instance (db : DB) (id : Nat) (s : TenderStatus) : Decidable (tenderStatusIs db id s) := by
  unfold tenderStatusIs; infer_instance

instance (db : DB) (id : Nat) (c : Option Nat) : Decidable (shipmentCarrierIs db id c) := by
  unfold shipmentCarrierIs; infer_instance

instance (db : DB) (id : Nat) : Decidable (dormant db id) := by
  unfold dormant; infer_instance

instance (db : DB) (tenderId : Nat) : Decidable (hasAccepted db tenderId) := by
  unfold hasAccepted; infer_instance

instance (db : DB) : Decidable (offerIdsNodup db) := by
  unfold offerIdsNodup; infer_instance

/-! Concrete stores used by counterexamples and witnesses. -/

/-- A CLOSED tender with a shipment and two SUBMITTED offers. -/
def awardDB : DB :=
  { tenders := [⟨1, 50, some 5, .CLOSED, .SEQUENTIAL, 0, none, 100⟩],
    offers := [⟨10, 1, 20, .SUBMITTED, 900, "USD", 200, some 90⟩,
               ⟨11, 1, 21, .SUBMITTED, 950, "USD", 200, some 91⟩,
               ⟨12, 1, 22, .PENDING, 0, "USD", 100, none⟩],
    shipments := [⟨5, none⟩],
    orders := [50], parties := [30, 20, 21, 22], relations := [], nextId := 200 }

/-- A CLOSED tender whose offer deadline (5) already passed, with a PENDING
pre-provisioned offer for carrier 20. -/
def lateDB : DB :=
  { tenders := [⟨1, 50, none, .CLOSED, .SEQUENTIAL, 0, none, 5⟩],
    offers := [⟨10, 1, 20, .PENDING, 0, "USD", 5, none⟩],
    shipments := [], orders := [50], parties := [30, 20], relations := [], nextId := 200 }

/-- An OPEN tender whose offer deadline (5) already passed, with a PENDING
pre-provisioned offer for carrier 20. -/
def openLateDB : DB :=
  { tenders := [⟨1, 50, none, .OPEN, .SEQUENTIAL, 0, none, 5⟩],
    offers := [⟨10, 1, 20, .PENDING, 0, "USD", 5, none⟩],
    shipments := [], orders := [50], parties := [30, 20], relations := [], nextId := 200 }

/-- Broker 30 with one active carrier per tier 0/1/2. -/
def graphDB : DB :=
  { tenders := [], offers := [], shipments := [], orders := [50],
    parties := [30, 20, 21, 22],
    relations := [⟨30, 20, .BROKER_CARRIER, .ACTIVE, 0⟩,
                  ⟨30, 21, .BROKER_CARRIER, .ACTIVE, 1⟩,
                  ⟨30, 22, .BROKER_CARRIER, .ACTIVE, 2⟩],
    nextId := 100 }

def threeTierReq : List TierRequest := [⟨0, [], 60⟩, ⟨1, [], 60⟩, ⟨2, [], 60⟩]

/-- An AWARDED tender. -/
def awardedDB : DB :=
  { tenders := [⟨1, 50, none, .AWARDED, .SEQUENTIAL, 0, none, 100⟩],
    offers := [], shipments := [], orders := [50], parties := [], relations := [],
    nextId := 10 }

/-- An entirely empty store: party 99 is not a known party. -/
def emptyDB : DB :=
  { tenders := [], offers := [], shipments := [], orders := [], parties := [],
    relations := [], nextId := 0 }

/-! Counterexamples refuting claims as stated. -/

/-- C1, counterexample: when the post-transaction shipment update fails,
`award` surfaces an error while the tender is already AWARDED and the
shipment still has no assigned carrier — an observable intermediate state,
so the five-record atomicity stated by the claim does not hold. -/
theorem award_shipment_not_atomic_cex :
    ((award awardDB 1 10 ⟨false, true⟩).2).isSome = true ∧
    tenderStatusIs (award awardDB 1 10 ⟨false, true⟩).1 1 .AWARDED ∧
    shipmentCarrierIs (award awardDB 1 10 ⟨false, true⟩).1 5 none ∧
    (award awardDB 1 10 ⟨false, true⟩).1 ≠ awardDB := by decide

/-- C3, counterexample: on a CLOSED tender whose deadline already passed,
`submitOffer` fails with the not-open error, not with DeadlinePassed — the
status check precedes the deadline check. -/
theorem submit_after_deadline_cex :
    submitOffer lateDB 10 1 20 ⟨900, "USD", 50⟩ =
      .error (.badRequest "Tender is not open for offers") ∧
    submitOffer lateDB 10 1 20 ⟨900, "USD", 50⟩ ≠
      .error (.badRequest "Tender offer deadline has passed") := by decide

/-- C4, counterexample: a SEQUENTIAL cascade over tiers 0/1/2 creates
tenders with ids 100, 102, 104; the tier-2 tender's parentTenderId is 100
(the tier-0 root), not 102 (the tier-1 tender), so the created tenders do
not chain tier i → tier i−1. -/
theorem cascade_chain_cex :
    ((createSequentialTenders graphDB 0 50 threeTierReq
        (getCarriersByTier graphDB 30)).created.map
      (fun t => (t.tier, t.id, t.parentTenderId, t.status)) =
    [(0, 100, none, .OPEN), (1, 102, some 100, .DRAFT),
     (2, 104, some 100, .DRAFT)]) ∧
    (some 100 : Option Nat) ≠ some 102 := by decide

/-- C6, counterexample: a cascade request naming tier 5, at which the
broker has no carriers, makes `createCascadeTenders` fail as a whole
instead of silently skipping the empty tier. -/
theorem empty_tier_not_skipped_cex :
    createCascadeTenders graphDB 0 30 ⟨50, .SEQUENTIAL, [⟨0, [], 60⟩, ⟨5, [], 60⟩]⟩ =
      .error (.badRequest "No carriers available at tier") := by decide

/-- C7, counterexample: party 99 is not a known party, yet the tier
resolver returns the empty grouping instead of failing with NotFound —
the source never consults the Party table. -/
theorem unknown_broker_no_notfound_cex :
    getCarriersByTier emptyDB 99 = [] ∧ ¬(99 ∈ emptyDB.parties) := by decide

/-- C8, counterexample: `cancel` on an AWARDED tender succeeds and moves it
to CANCELLED — the source has no status precondition on cancel. -/
theorem cancel_awarded_cex :
    (∀ t ∈ awardedDB.tenders, t.status = .AWARDED) ∧
    cancelTender awardedDB 1 =
      .ok { awardedDB with tenders := [⟨1, 50, none, .CANCELLED, .SEQUENTIAL, 0, none, 100⟩] } := by
  decide

/-! Helper lemmas about the store primitives. -/

theorem updateTender_offers (db : DB) (id : Nat) (f : Tender → Tender) :
    (db.updateTender id f).offers = db.offers := rfl

theorem updateTender_shipments (db : DB) (id : Nat) (f : Tender → Tender) :
    (db.updateTender id f).shipments = db.shipments := rfl

theorem updateOffer_tenders (db : DB) (id : Nat) (f : Offer → Offer) :
    (db.updateOffer id f).tenders = db.tenders := rfl

theorem updateShipment_tenders (db : DB) (id : Nat) (f : Shipment → Shipment) :
    (db.updateShipment id f).tenders = db.tenders := rfl

theorem updateShipment_offers (db : DB) (id : Nat) (f : Shipment → Shipment) :
    (db.updateShipment id f).offers = db.offers := rfl

/-- Rewriting every row with a given id to a constant status makes every
row with that id carry that status. -/
theorem statusIs_map_const (l : List Tender) (id : Nat) (s : TenderStatus) :
    ∀ t ∈ l.map (fun u => if u.id == id then { u with status := s } else u),
      t.id = id → t.status = s := by
  intro t ht hid
  obtain ⟨a, _, rfl⟩ := List.mem_map.1 ht
  by_cases h : a.id = id
  · simp [h]
  · simp [h] at hid

/-- Counterpart of `statusIs_map_const` for shipment carrier
assignments. -/
theorem carrierIs_map_const (l : List Shipment) (id : Nat) (c : Option Nat) :
    ∀ s ∈ l.map (fun u => if u.id == id then { u with assignedCarrierId := c } else u),
      s.id = id → s.assignedCarrierId = c := by
  intro s hs hid
  obtain ⟨a, _, rfl⟩ := List.mem_map.1 hs
  by_cases h : a.id = id
  · simp [h]
  · simp [h] at hid

/-! The award transaction, row by row. -/

/-- The per-row effect of the award transaction on the offer table: the
winning offer goes to ACCEPTED, and any other offer of the tender whose
status is (still) SUBMITTED goes to REJECTED. -/
def awardOfferMap (tenderId offerId : Nat) (o : Offer) : Offer :=
  let o1 := if o.id == offerId then { o with status := OfferStatus.ACCEPTED } else o
  if o1.tenderId == tenderId && o1.id != offerId && o1.status == .SUBMITTED then
    { o1 with status := .REJECTED }
  else o1

theorem applyAwardTxn_offers (db : DB) (tenderId offerId : Nat) :
    (applyAwardTxn db tenderId offerId).offers =
      db.offers.map (awardOfferMap tenderId offerId) := by
  simp only [applyAwardTxn, DB.updateTender, DB.updateOffer, DB.updateOffersWhere,
    List.map_map]
  rfl

theorem applyAwardTxn_tenders (db : DB) (tenderId offerId : Nat) :
    (applyAwardTxn db tenderId offerId).tenders =
      db.tenders.map (fun t =>
        if t.id == tenderId then { t with status := TenderStatus.AWARDED } else t) := rfl

theorem applyAwardTxn_shipments (db : DB) (tenderId offerId : Nat) :
    (applyAwardTxn db tenderId offerId).shipments = db.shipments := rfl

/-- What the award transaction promises for each offer row, stated against
the row's pre-state: the winner is ACCEPTED; a SUBMITTED rival of the same
tender is REJECTED; everything else — in particular every PENDING or
WITHDRAWN offer and every offer of another tender — is untouched. -/
def awardOfferSpec (tenderId offerId : Nat) (o o2 : Offer) : Prop :=
  (o.id = offerId → o2 = { o with status := .ACCEPTED }) ∧
  (o.id ≠ offerId → o.tenderId = tenderId → o.status = .SUBMITTED →
    o2 = { o with status := .REJECTED }) ∧
  (o.id ≠ offerId → (o.tenderId ≠ tenderId ∨ o.status ≠ .SUBMITTED) → o2 = o)

theorem awardOfferSpec_map (tenderId offerId : Nat) (o : Offer) :
    awardOfferSpec tenderId offerId o (awardOfferMap tenderId offerId o) := by
  unfold awardOfferSpec awardOfferMap
  by_cases h1 : o.id = offerId
  · simp [h1]
  · by_cases h2 : o.tenderId = tenderId
    · by_cases h3 : o.status = .SUBMITTED
      · simp [h1, h2, h3]
      · simp [h1, h2, h3]
    · simp [h1, h2]

theorem forall2_awardOfferSpec (l : List Offer) (tenderId offerId : Nat) :
    List.Forall₂ (awardOfferSpec tenderId offerId) l
      (l.map (awardOfferMap tenderId offerId)) := by
  rw [List.forall₂_map_right_iff, List.forall₂_same]
  intro o _
  exact awardOfferSpec_map tenderId offerId o

/-! Branch characterisations of `award`. -/

theorem award_eq_of_not_closed (db : DB) (tenderId offerId : Nat)
    (faults : AwardFaults) (t : Tender) (hft : db.findTender tenderId = some t)
    (hst : t.status ≠ .CLOSED) :
    award db tenderId offerId faults =
      (db, some (.badRequest "Only CLOSED tenders can be awarded")) := by
  unfold award
  rw [hft]
  simp [hst]

theorem award_eq_of_no_offer (db : DB) (tenderId offerId : Nat)
    (faults : AwardFaults) (t : Tender) (hft : db.findTender tenderId = some t)
    (hst : t.status = .CLOSED)
    (hfo : (db.offersOf tenderId).find? (fun x => x.id == offerId) = none) :
    award db tenderId offerId faults =
      (db, some (.notFound "Offer not found in this tender")) := by
  unfold award
  rw [hft]
  simp [hst, hfo]

theorem award_eq_of_not_submitted (db : DB) (tenderId offerId : Nat)
    (faults : AwardFaults) (t : Tender) (hft : db.findTender tenderId = some t)
    (hst : t.status = .CLOSED) (o : Offer)
    (hfo : (db.offersOf tenderId).find? (fun x => x.id == offerId) = some o)
    (hos : o.status ≠ .SUBMITTED) :
    award db tenderId offerId faults =
      (db, some (.badRequest "Only SUBMITTED offers can be accepted")) := by
  unfold award
  rw [hft]
  simp [hst, hfo, hos]

theorem award_eq_success (db : DB) (tenderId offerId : Nat)
    (faults : AwardFaults) (t : Tender) (hft : db.findTender tenderId = some t)
    (hst : t.status = .CLOSED) (o : Offer)
    (hfo : (db.offersOf tenderId).find? (fun x => x.id == offerId) = some o)
    (hos : o.status = .SUBMITTED) (htxn : faults.txnFail = false) :
    award db tenderId offerId faults =
      (match t.shipmentId with
       | none => (applyAwardTxn db tenderId offerId, none)
       | some sid =>
         if faults.shipFail then
           (applyAwardTxn db tenderId offerId, some (.badRequest "shipment update failed"))
         else
           ((applyAwardTxn db tenderId offerId).updateShipment sid
             (fun s => { s with assignedCarrierId := some o.carrierId }), none)) := by
  unfold award
  rw [hft]
  simp [hst, hfo, hos, htxn]

/-- C2: on a CLOSED tender, awarding an offer that belongs to it and is
SUBMITTED succeeds, making the tender AWARDED, the winner ACCEPTED, every
other SUBMITTED offer of the tender REJECTED and leaving PENDING and
WITHDRAWN offers (and offers of other tenders) untouched; a non-CLOSED
tender fails with the InvalidState message, an offer not in the tender
with NotFound, and a non-SUBMITTED offer with the Conflict message —
in each failure the store is unchanged. -/
theorem award_spec (db : DB) (tenderId offerId : Nat) (t : Tender)
    (hft : db.findTender tenderId = some t) :
    (t.status = .CLOSED →
      ∀ o, (db.offersOf tenderId).find? (fun x => x.id == offerId) = some o →
        o.status = .SUBMITTED →
        (award db tenderId offerId noFaults).2 = none ∧
        tenderStatusIs (award db tenderId offerId noFaults).1 tenderId .AWARDED ∧
        List.Forall₂ (awardOfferSpec tenderId offerId) db.offers
          (award db tenderId offerId noFaults).1.offers) ∧
    (∀ faults, t.status ≠ .CLOSED →
      award db tenderId offerId faults =
        (db, some (.badRequest "Only CLOSED tenders can be awarded"))) ∧
    (∀ faults, t.status = .CLOSED →
      (db.offersOf tenderId).find? (fun x => x.id == offerId) = none →
      award db tenderId offerId faults =
        (db, some (.notFound "Offer not found in this tender"))) ∧
    (∀ faults o, t.status = .CLOSED →
      (db.offersOf tenderId).find? (fun x => x.id == offerId) = some o →
      o.status ≠ .SUBMITTED →
      award db tenderId offerId faults =
        (db, some (.badRequest "Only SUBMITTED offers can be accepted"))) := by
  refine ⟨?_, ?_, ?_, ?_⟩
  · intro hst o hfo hos
    rw [award_eq_success db tenderId offerId noFaults t hft hst o hfo hos rfl]
    have htenders : tenderStatusIs (applyAwardTxn db tenderId offerId) tenderId .AWARDED := by
      unfold tenderStatusIs
      rw [applyAwardTxn_tenders]
      exact statusIs_map_const _ _ _
    have hoffers : List.Forall₂ (awardOfferSpec tenderId offerId) db.offers
        (applyAwardTxn db tenderId offerId).offers := by
      rw [applyAwardTxn_offers]
      exact forall2_awardOfferSpec _ _ _
    cases hship : t.shipmentId with
    | none => exact ⟨rfl, htenders, hoffers⟩
    | some sid =>
      exact ⟨rfl, htenders, hoffers⟩
  · intro faults hst
    exact award_eq_of_not_closed db tenderId offerId faults t hft hst
  · intro faults hst hfo
    exact award_eq_of_no_offer db tenderId offerId faults t hft hst hfo
  · intro faults o hst hfo hos
    exact award_eq_of_not_submitted db tenderId offerId faults t hft hst o hfo hos

theorem award_spec_witness :
    (award awardDB 1 10 noFaults).2 = none ∧
    tenderStatusIs (award awardDB 1 10 noFaults).1 1 .AWARDED ∧
    List.Forall₂ (awardOfferSpec 1 10) awardDB.offers
      (award awardDB 1 10 noFaults).1.offers :=
  (award_spec awardDB 1 10 ⟨1, 50, some 5, .CLOSED, .SEQUENTIAL, 0, none, 100⟩
      (by decide)).1 (by decide)
    ⟨10, 1, 20, .SUBMITTED, 900, "USD", 200, some 90⟩ (by decide) (by decide)

/-- C1 (amended): the tender/offer part of `award` (steps 2–4) is
all-or-nothing — after any call, with any infrastructure faults, either the
store is unchanged or the tender is AWARDED with the winner ACCEPTED and
the SUBMITTED rivals REJECTED; and when the call returns no error on a
tender carrying a shipmentId, the winning carrier is assigned to the
shipment. The shipment assignment runs outside the transaction, so (per
the counterexample) a failure there can leave steps 2–4 applied with the
shipment unassigned. -/
theorem award_txn_atomic (db : DB) (tenderId offerId : Nat) (faults : AwardFaults) :
    ((award db tenderId offerId faults).1 = db ∨
      (tenderStatusIs (award db tenderId offerId faults).1 tenderId .AWARDED ∧
        List.Forall₂ (awardOfferSpec tenderId offerId) db.offers
          (award db tenderId offerId faults).1.offers)) ∧
    ((award db tenderId offerId faults).2 = none →
      ∀ t, db.findTender tenderId = some t → ∀ sid, t.shipmentId = some sid →
        ∀ o, (db.offersOf tenderId).find? (fun x => x.id == offerId) = some o →
          shipmentCarrierIs (award db tenderId offerId faults).1 sid (some o.carrierId)) := by
  have htenders : tenderStatusIs (applyAwardTxn db tenderId offerId) tenderId .AWARDED := by
    unfold tenderStatusIs
    rw [applyAwardTxn_tenders]
    exact statusIs_map_const _ _ _
  have hoffers : List.Forall₂ (awardOfferSpec tenderId offerId) db.offers
      (applyAwardTxn db tenderId offerId).offers := by
    rw [applyAwardTxn_offers]
    exact forall2_awardOfferSpec _ _ _
  cases hft : db.findTender tenderId with
  | none =>
    have h : award db tenderId offerId faults = (db, some (.notFound "Tender not found")) := by
      unfold award; rw [hft]
    rw [h]
    exact ⟨Or.inl rfl, by intro hc; exact absurd hc (by simp)⟩
  | some t =>
    by_cases hst : t.status = .CLOSED
    · cases hfo : (db.offersOf tenderId).find? (fun x => x.id == offerId) with
      | none =>
        rw [award_eq_of_no_offer db tenderId offerId faults t hft hst hfo]
        exact ⟨Or.inl rfl, by intro hc; exact absurd hc (by simp)⟩
      | some o =>
        by_cases hos : o.status = .SUBMITTED
        · by_cases htxn : faults.txnFail = true
          · have h : award db tenderId offerId faults =
                (db, some (.badRequest "transaction failed")) := by
              unfold award; rw [hft]; simp [hst, hfo, hos, htxn]
            rw [h]
            exact ⟨Or.inl rfl, by intro hc; exact absurd hc (by simp)⟩
          · have htxn2 : faults.txnFail = false := Bool.eq_false_iff.2 htxn
            rw [award_eq_success db tenderId offerId faults t hft hst o hfo hos htxn2]
            cases hship : t.shipmentId with
            | none =>
              refine ⟨Or.inr ⟨htenders, hoffers⟩, ?_⟩
              intro _ t2 hft2 sid hsid o2 _
              cases hft2
              rw [hship] at hsid
              cases hsid
            | some sid =>
              by_cases hsf : faults.shipFail = true
              · simp only [hsf, if_true]
                refine ⟨Or.inr ⟨htenders, hoffers⟩, ?_⟩
                intro hc
                exact absurd hc (by simp)
              · have hsf2 : faults.shipFail = false := Bool.eq_false_iff.2 hsf
                simp only [hsf2, Bool.false_eq_true, if_false]
                constructor
                · refine Or.inr ⟨?_, hoffers⟩
                  intro u hu hid
                  exact htenders u hu hid
                · intro _ t2 hft2 sid2 hsid o2 hfo2
                  cases hft2
                  rw [hship] at hsid
                  cases hsid
                  cases hfo2
                  unfold shipmentCarrierIs
                  show ∀ s ∈ ((applyAwardTxn db tenderId offerId).shipments.map _), _
                  rw [applyAwardTxn_shipments]
                  exact carrierIs_map_const _ _ _
        · rw [award_eq_of_not_submitted db tenderId offerId faults t hft hst o hfo hos]
          exact ⟨Or.inl rfl, by intro hc; exact absurd hc (by simp)⟩
    · rw [award_eq_of_not_closed db tenderId offerId faults t hft hst]
      exact ⟨Or.inl rfl, by intro hc; exact absurd hc (by simp)⟩

theorem award_txn_atomic_witness :
    shipmentCarrierIs (award awardDB 1 10 noFaults).1 5 (some 20) :=
  (award_txn_atomic awardDB 1 10 noFaults).2 (by decide)
    ⟨1, 50, some 5, .CLOSED, .SEQUENTIAL, 0, none, 100⟩ (by decide) 5 (by decide)
    ⟨10, 1, 20, .SUBMITTED, 900, "USD", 200, some 90⟩ (by decide)

/-- A SUBMITTED offer on which `acceptOffer` is exercised, inside a store
that also has a rival SUBMITTED offer, a tender chain and a shipment. -/
def acceptDB : DB :=
  { tenders := [⟨1, 50, some 5, .CLOSED, .SEQUENTIAL, 0, none, 100⟩,
                ⟨2, 50, none, .DRAFT, .SEQUENTIAL, 1, some 1, 100⟩],
    offers := [⟨10, 1, 20, .SUBMITTED, 900, "USD", 200, some 90⟩,
               ⟨11, 1, 21, .SUBMITTED, 950, "USD", 200, some 91⟩],
    shipments := [⟨5, none⟩],
    orders := [50], parties := [], relations := [], nextId := 300 }

/-- C10: `acceptOffer` on a SUBMITTED offer succeeds and changes only that
offer's status to ACCEPTED: the tender table (hence the owning tender's
status and its parent/child chain), the shipment table (hence any carrier
assignment), orders, parties and relations are untouched, and every offer
with a different id — including rival SUBMITTED offers of the same tender —
is exactly as before. -/
theorem acceptOffer_frame (db : DB) (offerId : Nat) (o : Offer)
    (hfind : db.findOffer offerId = some o) (hsub : o.status = .SUBMITTED) :
    ∃ db2, acceptOffer db offerId = .ok db2 ∧
      db2.tenders = db.tenders ∧ db2.shipments = db.shipments ∧
      db2.orders = db.orders ∧ db2.parties = db.parties ∧
      db2.relations = db.relations ∧ db2.nextId = db.nextId ∧
      (∀ x ∈ db.offers, x.id ≠ offerId → x ∈ db2.offers) ∧
      (∀ x ∈ db2.offers, x.id ≠ offerId → x ∈ db.offers) ∧
      (∀ x ∈ db2.offers, x.id = offerId →
        x.status = .ACCEPTED ∧
        ∃ y ∈ db.offers, y.id = offerId ∧ x = { y with status := .ACCEPTED }) := by
  refine ⟨db.updateOffer offerId (fun u => { u with status := .ACCEPTED }),
    ?_, rfl, rfl, rfl, rfl, rfl, rfl, ?_, ?_, ?_⟩
  · unfold acceptOffer
    rw [hfind]
    simp [hsub]
  · intro x hx hne
    refine List.mem_map.2 ⟨x, hx, ?_⟩
    simp [hne]
  · intro x hx hne
    obtain ⟨a, ha, rfl⟩ := List.mem_map.1 hx
    by_cases h : a.id = offerId
    · exfalso
      apply hne
      simp [h]
    · simpa [h] using ha
  · intro x hx hid
    obtain ⟨a, ha, rfl⟩ := List.mem_map.1 hx
    by_cases h : a.id = offerId
    · refine ⟨by simp [h], a, ha, h, by simp [h]⟩
    · simp [h] at hid

theorem acceptOffer_frame_witness :
    ∃ db2, acceptOffer acceptDB 10 = .ok db2 ∧
      db2.tenders = acceptDB.tenders ∧ db2.shipments = acceptDB.shipments ∧
      db2.orders = acceptDB.orders ∧ db2.parties = acceptDB.parties ∧
      db2.relations = acceptDB.relations ∧ db2.nextId = acceptDB.nextId ∧
      (∀ x ∈ acceptDB.offers, x.id ≠ 10 → x ∈ db2.offers) ∧
      (∀ x ∈ db2.offers, x.id ≠ 10 → x ∈ acceptDB.offers) ∧
      (∀ x ∈ db2.offers, x.id = 10 →
        x.status = .ACCEPTED ∧
        ∃ y ∈ acceptDB.offers, y.id = 10 ∧ x = { y with status := .ACCEPTED }) :=
  acceptOffer_frame acceptDB 10 ⟨10, 1, 20, .SUBMITTED, 900, "USD", 200, some 90⟩
    (by decide) (by decide)

/-- C3 (amended): once a tender's offerDeadline lies before the current
time, `submitOffer` can never succeed; it fails with DeadlinePassed
exactly when the tender is OPEN — for a tender in any other status the
earlier status check fires first, so the failure is the not-open error
instead. -/
theorem submit_after_deadline_fails (db : DB) (now tenderId : Nat) (t : Tender)
    (hft : db.findTender tenderId = some t) (hd : t.offerDeadline < now) :
    (∀ carrierId dto db2, submitOffer db now tenderId carrierId dto ≠ .ok db2) ∧
    (t.status = .OPEN → ∀ carrierId dto,
      submitOffer db now tenderId carrierId dto =
        .error (.badRequest "Tender offer deadline has passed")) := by
  constructor
  · intro carrierId dto db2 hok
    unfold submitOffer at hok
    rw [hft] at hok
    by_cases hst : t.status = .OPEN
    · simp [hst, hd] at hok
    · simp [hst] at hok
  · intro hst carrierId dto
    unfold submitOffer
    rw [hft]
    simp [hst, hd]

theorem submit_after_deadline_fails_witness :
    submitOffer openLateDB 10 1 20 ⟨900, "USD", 50⟩ =
      .error (.badRequest "Tender offer deadline has passed") :=
  (submit_after_deadline_fails openLateDB 10 1
      ⟨1, 50, none, .OPEN, .SEQUENTIAL, 0, none, 5⟩ (by decide) (by decide)).2
    (by decide) 20 ⟨900, "USD", 50⟩

/-- C8 (amended): `open`, `close` and `award` advance the status only
along DRAFT → OPEN → CLOSED → AWARDED (each succeeds only from its
required predecessor status and establishes the next); `cancel`, by
contrast, carries no status guard: on any existing tender — including one
already AWARDED or CANCELLED — it succeeds and sets the status to
CANCELLED. -/
theorem lifecycle_transitions :
    (∀ db id db2, openTender db id = .ok db2 →
      ∃ t, db.findTender id = some t ∧ t.status = .DRAFT ∧
        tenderStatusIs db2 id .OPEN) ∧
    (∀ db id db2, closeTender db id = .ok db2 →
      ∃ t, db.findTender id = some t ∧ t.status = .OPEN ∧
        tenderStatusIs db2 id .CLOSED) ∧
    (∀ db tenderId offerId faults,
      (award db tenderId offerId faults).2 = none →
      ∃ t, db.findTender tenderId = some t ∧ t.status = .CLOSED ∧
        tenderStatusIs (award db tenderId offerId faults).1 tenderId .AWARDED) ∧
    (∀ db id t, db.findTender id = some t →
      ∃ db2, cancelTender db id = .ok db2 ∧ tenderStatusIs db2 id .CANCELLED) := by
  refine ⟨?_, ?_, ?_, ?_⟩
  · intro db id db2 hok
    unfold openTender at hok
    cases hft : db.findTender id with
    | none => rw [hft] at hok; cases hok
    | some t =>
      rw [hft] at hok
      by_cases hst : t.status = .DRAFT
      · simp only [hst, if_true, Except.ok.injEq] at hok
        subst hok
        refine ⟨t, rfl, hst, ?_⟩
        unfold tenderStatusIs DB.updateTender
        exact statusIs_map_const _ _ _
      · simp only [hst, if_false] at hok
        cases hok
  · intro db id db2 hok
    unfold closeTender at hok
    cases hft : db.findTender id with
    | none => rw [hft] at hok; cases hok
    | some t =>
      rw [hft] at hok
      by_cases hst : t.status = .OPEN
      · simp only [hst, if_true, Except.ok.injEq] at hok
        subst hok
        refine ⟨t, rfl, hst, ?_⟩
        unfold tenderStatusIs DB.updateTender
        exact statusIs_map_const _ _ _
      · simp only [hst, if_false] at hok
        cases hok
  · intro db tenderId offerId faults hnone
    cases hft : db.findTender tenderId with
    | none =>
      have h : award db tenderId offerId faults = (db, some (.notFound "Tender not found")) := by
        unfold award; rw [hft]
      rw [h] at hnone
      cases hnone
    | some t =>
      by_cases hst : t.status = .CLOSED
      · refine ⟨t, rfl, hst, ?_⟩
        cases hfo : (db.offersOf tenderId).find? (fun x => x.id == offerId) with
        | none =>
          rw [award_eq_of_no_offer db tenderId offerId faults t hft hst hfo] at hnone ⊢
          cases hnone
        | some o =>
          by_cases hos : o.status = .SUBMITTED
          · by_cases htxn : faults.txnFail = true
            · have h : award db tenderId offerId faults =
                  (db, some (.badRequest "transaction failed")) := by
                unfold award; rw [hft]; simp [hst, hfo, hos, htxn]
              rw [h] at hnone
              cases hnone
            · have htxn2 : faults.txnFail = false := Bool.eq_false_iff.2 htxn
              rw [award_eq_success db tenderId offerId faults t hft hst o hfo hos htxn2]
              have htenders : tenderStatusIs (applyAwardTxn db tenderId offerId)
                  tenderId .AWARDED := by
                unfold tenderStatusIs
                rw [applyAwardTxn_tenders]
                exact statusIs_map_const _ _ _
              cases hship : t.shipmentId with
              | none => exact htenders
              | some sid =>
                by_cases hsf : faults.shipFail = true
                · simp only [hsf, if_true]
                  exact htenders
                · have hsf2 : faults.shipFail = false := Bool.eq_false_iff.2 hsf
                  simp only [hsf2, Bool.false_eq_true, if_false]
                  exact htenders
          · rw [award_eq_of_not_submitted db tenderId offerId faults t hft hst o hfo hos] at hnone
            cases hnone
      · rw [award_eq_of_not_closed db tenderId offerId faults t hft hst] at hnone
        cases hnone
  · intro db id t hft
    refine ⟨db.updateTender id (fun u => { u with status := .CANCELLED }), ?_, ?_⟩
    · unfold cancelTender
      rw [hft]
    · unfold tenderStatusIs DB.updateTender
      exact statusIs_map_const _ _ _

theorem lifecycle_transitions_witness :
    ∃ db2, cancelTender awardedDB 1 = .ok db2 ∧
      tenderStatusIs db2 1 .CANCELLED :=
  lifecycle_transitions.2.2.2 awardedDB 1
    ⟨1, 50, none, .AWARDED, .SEQUENTIAL, 0, none, 100⟩ (by decide)

/-! Branch characterisations of the closed-signal handler. -/

theorem handleTenderClosed_eq_of_other (db : DB) (currentId nextId : Nat)
    (sig : ClosedSignal) (hsig : ¬sig.tenderId = currentId) :
    handleTenderClosed db currentId nextId sig = db := by
  unfold handleTenderClosed
  exact if_neg hsig

theorem handleTenderClosed_eq_of_none (db : DB) (currentId nextId : Nat)
    (sig : ClosedSignal) (hsig : sig.tenderId = currentId)
    (hft : db.findTender currentId = none) :
    handleTenderClosed db currentId nextId sig = db := by
  unfold handleTenderClosed
  rw [if_pos hsig, hft]

theorem handleTenderClosed_eq_of_cond (db : DB) (currentId nextId : Nat)
    (sig : ClosedSignal) (t : Tender) (hsig : sig.tenderId = currentId)
    (hft : db.findTender currentId = some t)
    (hcond : (!(db.offersOf currentId).any (fun o => o.status == OfferStatus.ACCEPTED) &&
        t.status == TenderStatus.CLOSED) = true) :
    handleTenderClosed db currentId nextId sig = openNextTier db nextId := by
  unfold handleTenderClosed
  rw [if_pos hsig, hft]
  exact if_pos hcond

theorem handleTenderClosed_eq_of_not_cond (db : DB) (currentId nextId : Nat)
    (sig : ClosedSignal) (t : Tender) (hsig : sig.tenderId = currentId)
    (hft : db.findTender currentId = some t)
    (hcond : (!(db.offersOf currentId).any (fun o => o.status == OfferStatus.ACCEPTED) &&
        t.status == TenderStatus.CLOSED) = false) :
    handleTenderClosed db currentId nextId sig = db := by
  unfold handleTenderClosed
  rw [if_pos hsig, hft]
  exact if_neg (by simp [hcond])

/-- Looking a tender up after an id-preserving row update finds the
updated image of the original row. -/
theorem findTender_updateTender (db : DB) (id id2 : Nat) (f : Tender → Tender)
    (hf : ∀ t, (f t).id = t.id) :
    (db.updateTender id f).findTender id2 =
      (db.findTender id2).map (fun t => if t.id == id then f t else t) := by
  unfold DB.findTender DB.updateTender
  rw [List.find?_map]
  have hp : ((fun t : Tender => t.id == id2) ∘ (fun t => if t.id == id then f t else t)) =
      fun t : Tender => t.id == id2 := by
    funext t
    by_cases h : t.id = id
    · simp [Function.comp, h, hf]
    · simp [Function.comp, h]
  rw [hp]

theorem offersOf_updateTender (db : DB) (id : Nat) (f : Tender → Tender)
    (tenderId : Nat) :
    (db.updateTender id f).offersOf tenderId = db.offersOf tenderId := rfl

/-- Setting a constant status twice is the same as setting it once. -/
theorem updateTender_const_idem (db : DB) (id : Nat) (s : TenderStatus) :
    (db.updateTender id (fun t => { t with status := s })).updateTender id
      (fun t => { t with status := s }) =
    db.updateTender id (fun t => { t with status := s }) := by
  unfold DB.updateTender
  simp only [List.map_map]
  congr 1
  apply List.map_congr_left
  intro t _
  by_cases h : t.id = id
  · simp [Function.comp, h]
  · simp [Function.comp, h]

/-- C9: the SEQUENTIAL closed-signal reaction is idempotent — handling the
same closing signal a second time leaves every tender and offer exactly as
after the first handling — and its escalation decision depends only on the
signal's tenderId together with the state re-read at handling time, never
on the status snapshot captured when the signal was created. -/
theorem closed_signal_idempotent :
    (∀ db currentId nextId sig,
      handleTenderClosed (handleTenderClosed db currentId nextId sig) currentId nextId sig =
        handleTenderClosed db currentId nextId sig) ∧
    (∀ db currentId nextId sig sig2, sig.tenderId = sig2.tenderId →
      handleTenderClosed db currentId nextId sig =
        handleTenderClosed db currentId nextId sig2) := by
  constructor
  · intro db currentId nextId sig
    by_cases hsig : sig.tenderId = currentId
    · cases hft : db.findTender currentId with
      | none =>
        rw [handleTenderClosed_eq_of_none db currentId nextId sig hsig hft,
          handleTenderClosed_eq_of_none db currentId nextId sig hsig hft]
      | some t =>
        cases hcond : (!(db.offersOf currentId).any (fun o => o.status == OfferStatus.ACCEPTED) &&
            t.status == TenderStatus.CLOSED) with
        | false =>
          rw [handleTenderClosed_eq_of_not_cond db currentId nextId sig t hsig hft hcond,
            handleTenderClosed_eq_of_not_cond db currentId nextId sig t hsig hft hcond]
        | true =>
          rw [handleTenderClosed_eq_of_cond db currentId nextId sig t hsig hft hcond]
          have hft2 : (openNextTier db nextId).findTender currentId =
              some (if t.id == nextId then { t with status := .OPEN } else t) := by
            unfold openNextTier
            rw [findTender_updateTender db nextId currentId
              (fun u => { u with status := TenderStatus.OPEN }) (fun u => rfl), hft]
            rfl
          by_cases hn : t.id = nextId
          · have hcond2 : (!((openNextTier db nextId).offersOf currentId).any
                (fun o => o.status == OfferStatus.ACCEPTED) &&
                (if t.id == nextId then { t with status := TenderStatus.OPEN } else t).status ==
                  TenderStatus.CLOSED) = false := by
              simp [hn, offersOf_updateTender, openNextTier]
            exact handleTenderClosed_eq_of_not_cond (openNextTier db nextId) currentId nextId sig
              _ hsig hft2 hcond2
          · have heq : (if t.id == nextId then { t with status := TenderStatus.OPEN } else t) = t := by
              simp [hn]
            rw [heq] at hft2
            have hcond2 : (!((openNextTier db nextId).offersOf currentId).any
                (fun o => o.status == OfferStatus.ACCEPTED) &&
                t.status == TenderStatus.CLOSED) = true := hcond
            rw [handleTenderClosed_eq_of_cond (openNextTier db nextId) currentId nextId sig
              t hsig hft2 hcond2]
            exact updateTender_const_idem db nextId .OPEN
    · rw [handleTenderClosed_eq_of_other db currentId nextId sig hsig,
        handleTenderClosed_eq_of_other db currentId nextId sig hsig]
  · intro db currentId nextId sig sig2 h
    unfold handleTenderClosed
    rw [h]

/-- A two-tier cascade pair: tender 1 CLOSED without accepted offers,
tender 2 DRAFT. -/
def seqTrigDB : DB :=
  { tenders := [⟨1, 50, none, .CLOSED, .SEQUENTIAL, 0, none, 100⟩,
                ⟨2, 50, none, .DRAFT, .SEQUENTIAL, 1, some 1, 100⟩],
    offers := [⟨10, 1, 20, .REJECTED, 900, "USD", 200, some 90⟩,
               ⟨11, 2, 21, .PENDING, 0, "USD", 300, none⟩],
    shipments := [], orders := [50], parties := [], relations := [], nextId := 400 }

theorem closed_signal_idempotent_witness :
    (handleTenderClosed (handleTenderClosed seqTrigDB 1 2 ⟨1, .CLOSED⟩) 1 2 ⟨1, .CLOSED⟩ =
      handleTenderClosed seqTrigDB 1 2 ⟨1, .CLOSED⟩) ∧
    (handleTenderClosed seqTrigDB 1 2 ⟨1, .CLOSED⟩ =
      handleTenderClosed seqTrigDB 1 2 ⟨1, .OPEN⟩) :=
  ⟨closed_signal_idempotent.1 seqTrigDB 1 2 ⟨1, .CLOSED⟩,
    closed_signal_idempotent.2 seqTrigDB 1 2 ⟨1, .CLOSED⟩ ⟨1, .OPEN⟩ (by decide)⟩

/-! Success-shape lemmas for the lifecycle mutators. -/

theorem findTender_mem {db : DB} {id : Nat} {t : Tender}
    (h : db.findTender id = some t) : t ∈ db.tenders ∧ t.id = id := by
  unfold DB.findTender at h
  refine ⟨List.mem_of_find?_eq_some h, ?_⟩
  have := List.find?_some h
  simpa using this

theorem findOffer_mem {db : DB} {id : Nat} {o : Offer}
    (h : db.findOffer id = some o) : o ∈ db.offers ∧ o.id = id := by
  unfold DB.findOffer at h
  refine ⟨List.mem_of_find?_eq_some h, ?_⟩
  have := List.find?_some h
  simpa using this

theorem closeTender_ok {db : DB} {id : Nat} {db2 : DB}
    (h : closeTender db id = .ok db2) :
    ∃ t, db.findTender id = some t ∧ t.status = .OPEN ∧
      db2 = db.updateTender id (fun u => { u with status := .CLOSED }) := by
  unfold closeTender at h
  cases hft : db.findTender id with
  | none => rw [hft] at h; cases h
  | some t =>
    rw [hft] at h
    by_cases hst : t.status = .OPEN
    · simp only [hst, if_true, Except.ok.injEq] at h
      exact ⟨t, rfl, hst, h.symm⟩
    · simp only [hst, if_false] at h
      cases h

theorem cancelTender_ok {db : DB} {id : Nat} {db2 : DB}
    (h : cancelTender db id = .ok db2) :
    db2 = db.updateTender id (fun u => { u with status := .CANCELLED }) := by
  unfold cancelTender at h
  cases hft : db.findTender id with
  | none => rw [hft] at h; cases h
  | some t =>
    rw [hft] at h
    cases h
    rfl

theorem submitOffer_ok {db : DB} {now tenderId carrierId : Nat}
    {dto : SubmitOfferDto} {db2 : DB}
    (h : submitOffer db now tenderId carrierId dto = .ok db2) :
    ∃ existing, existing ∈ db.offers ∧ existing.status = .PENDING ∧
      db2 = db.updateOffer existing.id (fun o =>
        { o with status := .SUBMITTED, priceAmount := dto.priceAmount,
                 priceCurrency := dto.priceCurrency, validUntil := dto.validUntil,
                 submittedAt := some now }) := by
  unfold submitOffer at h
  cases hft : db.findTender tenderId with
  | none => rw [hft] at h; cases h
  | some tender =>
    rw [hft] at h
    by_cases hst : tender.status = .OPEN
    · by_cases hdl : tender.offerDeadline < now
      · simp [hst, hdl] at h
      · simp only [hst, hdl] at h
        cases hfo : db.offers.find? (fun o =>
            o.tenderId == tenderId && o.carrierId == carrierId) with
        | none => simp [hfo] at h
        | some existing =>
          simp only [hfo] at h
          by_cases hpend : existing.status = .PENDING
          · simp only [hpend] at h
            refine ⟨existing, List.mem_of_find?_eq_some hfo, hpend, ?_⟩
            simp at h
            exact h.symm
          · simp [hpend] at h
    · simp [hst] at h

theorem acceptOffer_ok {db : DB} {offerId : Nat} {db2 : DB}
    (h : acceptOffer db offerId = .ok db2) :
    db2 = db.updateOffer offerId (fun u => { u with status := .ACCEPTED }) := by
  unfold acceptOffer at h
  cases hfo : db.findOffer offerId with
  | none => rw [hfo] at h; cases h
  | some o =>
    rw [hfo] at h
    by_cases hst : o.status = .SUBMITTED
    · simp only [hst] at h
      simp at h
      exact h.symm
    · simp [hst] at h

theorem rejectOffer_ok {db : DB} {offerId : Nat} {db2 : DB}
    (h : rejectOffer db offerId = .ok db2) :
    ∃ o, o ∈ db.offers ∧ o.id = offerId ∧ o.status = .SUBMITTED ∧
      db2 = db.updateOffer offerId (fun u => { u with status := .REJECTED }) := by
  unfold rejectOffer at h
  cases hfo : db.findOffer offerId with
  | none => rw [hfo] at h; cases h
  | some o =>
    rw [hfo] at h
    by_cases hst : o.status = .SUBMITTED
    · simp only [hst] at h
      simp at h
      obtain ⟨hmem, hid⟩ := findOffer_mem hfo
      exact ⟨o, hmem, hid, hst, h.symm⟩
    · simp [hst] at h

theorem withdrawOffer_ok {db : DB} {tenderId carrierId : Nat} {db2 : DB}
    (h : withdrawOffer db tenderId carrierId = .ok db2) :
    ∃ o, o ∈ db.offers ∧ o.status = .SUBMITTED ∧
      db2 = db.updateOffer o.id (fun u => { u with status := .WITHDRAWN }) := by
  unfold withdrawOffer at h
  cases hfo : db.offers.find? (fun o =>
      o.tenderId == tenderId && o.carrierId == carrierId && o.status == .SUBMITTED) with
  | none => rw [hfo] at h; cases h
  | some o =>
    rw [hfo] at h
    cases h
    have hmem := List.mem_of_find?_eq_some hfo
    have hp := List.find?_some hfo
    simp only [Bool.and_eq_true, beq_iff_eq] at hp
    exact ⟨o, hmem, hp.2, rfl⟩

/-- Every store the first component of `award` can be: unchanged, or the
transaction applied on a tender found CLOSED (with the shipment update
possibly on top, which touches neither tenders nor offers). -/
theorem award_fst_cases (db : DB) (tenderId offerId : Nat) (faults : AwardFaults) :
    (award db tenderId offerId faults).1 = db ∨
    (∃ t, db.findTender tenderId = some t ∧ t.status = .CLOSED ∧
      (award db tenderId offerId faults).1.tenders = (applyAwardTxn db tenderId offerId).tenders ∧
      (award db tenderId offerId faults).1.offers = (applyAwardTxn db tenderId offerId).offers) := by
  cases hft : db.findTender tenderId with
  | none =>
    have h : award db tenderId offerId faults = (db, some (.notFound "Tender not found")) := by
      unfold award; rw [hft]
    rw [h]
    exact Or.inl rfl
  | some t =>
    by_cases hst : t.status = .CLOSED
    · cases hfo : (db.offersOf tenderId).find? (fun x => x.id == offerId) with
      | none =>
        rw [award_eq_of_no_offer db tenderId offerId faults t hft hst hfo]
        exact Or.inl rfl
      | some o =>
        by_cases hos : o.status = .SUBMITTED
        · by_cases htxn : faults.txnFail = true
          · have h : award db tenderId offerId faults =
                (db, some (.badRequest "transaction failed")) := by
              unfold award; rw [hft]; simp [hst, hfo, hos, htxn]
            rw [h]
            exact Or.inl rfl
          · have htxn2 : faults.txnFail = false := Bool.eq_false_iff.2 htxn
            rw [award_eq_success db tenderId offerId faults t hft hst o hfo hos htxn2]
            refine Or.inr ⟨t, rfl, hst, ?_⟩
            cases hship : t.shipmentId with
            | none => exact ⟨rfl, rfl⟩
            | some sid =>
              by_cases hsf : faults.shipFail = true
              · simp only [hsf, if_true]
                refine ⟨?_, ?_⟩ <;> trivial
              · have hsf2 : faults.shipFail = false := Bool.eq_false_iff.2 hsf
                simp only [hsf2, Bool.false_eq_true, if_false]
                refine ⟨?_, ?_⟩ <;> trivial
        · rw [award_eq_of_not_submitted db tenderId offerId faults t hft hst o hfo hos]
          exact Or.inl rfl
    · rw [award_eq_of_not_closed db tenderId offerId faults t hft hst]
      exact Or.inl rfl

/-! Preservation lemmas for the escalation invariant. -/

theorem dormant_of_tenders_eq {db db2 : DB} (h : db2.tenders = db.tenders)
    {id : Nat} (hd : dormant db id) : dormant db2 id := by
  intro t ht hid
  exact hd t (h ▸ ht) hid

theorem hasAccepted_of_offers_eq {db db2 : DB} (h : db2.offers = db.offers)
    {tid : Nat} (ha : hasAccepted db tid) : hasAccepted db2 tid := by
  obtain ⟨o, ho, htid, hst⟩ := ha
  exact ⟨o, h ▸ ho, htid, hst⟩

theorem offerIdsNodup_of_offers_eq {db db2 : DB} (h : db2.offers = db.offers)
    (hn : offerIdsNodup db) : offerIdsNodup db2 := by
  unfold offerIdsNodup at hn ⊢
  rw [h]
  exact hn

/-- Dormancy survives an id-preserving rewrite of rows with a different
id. -/
theorem dormant_map_ne {db db2 : DB} {id id2 : Nat} (f : Tender → Tender)
    (hf : ∀ t, (f t).id = t.id)
    (ht : db2.tenders = db.tenders.map (fun t => if t.id == id2 then f t else t))
    (hne : ¬id2 = id) (hd : dormant db id) : dormant db2 id := by
  intro t htm hid
  rw [ht] at htm
  obtain ⟨a, ha, rfl⟩ := List.mem_map.1 htm
  by_cases h : a.id = id2
  · exfalso
    apply hne
    simp only [h, beq_self_eq_true, if_true] at hid
    rw [hf a] at hid
    rw [← h]
    exact hid
  · simp only [if_neg (by simpa using h : ¬((a.id == id2) = true))] at hid ⊢
    exact hd a ha hid

/-- Dormancy survives cancelling any tender. -/
theorem dormant_map_cancel {db db2 : DB} {id id2 : Nat}
    (ht : db2.tenders = db.tenders.map (fun t =>
      if t.id == id2 then { t with status := TenderStatus.CANCELLED } else t))
    (hd : dormant db id) : dormant db2 id := by
  intro t htm hid
  rw [ht] at htm
  obtain ⟨a, ha, rfl⟩ := List.mem_map.1 htm
  by_cases h : a.id = id2
  · simp [h]
  · simp only [if_neg (by simpa using h : ¬((a.id == id2) = true))] at hid ⊢
    exact hd a ha hid

/-- A tender found with a status outside {DRAFT, CANCELLED} cannot be a
dormant one. -/
theorem dormant_ne_of_found {db : DB} {id id2 : Nat} {t : Tender}
    (hd : dormant db id) (hft : db.findTender id2 = some t)
    (h1 : t.status ≠ .DRAFT) (h2 : t.status ≠ .CANCELLED) : ¬id2 = id := by
  intro he
  obtain ⟨hmem, hid⟩ := findTender_mem hft
  rcases hd t hmem (by rw [hid, he]) with h | h
  · exact h1 h
  · exact h2 h

/-- An ACCEPTED witness survives a row rewrite at an id held by an offer
whose status is not ACCEPTED, given the primary-key invariant. -/
theorem hasAccepted_updateOffer_ne {db : DB} {tid oid : Nat} (f : Offer → Offer)
    (hnd : offerIdsNodup db) (x : Offer) (hx : x ∈ db.offers) (hxid : x.id = oid)
    (hxst : x.status ≠ .ACCEPTED)
    (h : hasAccepted db tid) : hasAccepted (db.updateOffer oid f) tid := by
  obtain ⟨o, ho, htid, hst⟩ := h
  have hne : ¬o.id = oid := by
    intro he
    have hox : o = x := List.inj_on_of_nodup_map hnd ho hx (by
      show o.id = x.id
      rw [he, hxid])
    rw [hox] at hst
    exact hxst hst
  refine ⟨o, ?_, htid, hst⟩
  exact List.mem_map.2 ⟨o, ho, by simp [hne]⟩

/-- An ACCEPTED witness survives a map that keeps ACCEPTED rows ACCEPTED on
the same tender. -/
theorem hasAccepted_map {db db2 : DB} {tid : Nat} (g : Offer → Offer)
    (hoff : db2.offers = db.offers.map g)
    (hg : ∀ o, o.status = .ACCEPTED → (g o).tenderId = o.tenderId ∧ (g o).status = .ACCEPTED)
    (h : hasAccepted db tid) : hasAccepted db2 tid := by
  obtain ⟨o, ho, htid, hst⟩ := h
  refine ⟨g o, ?_, ?_, (hg o hst).2⟩
  · rw [hoff]
    exact List.mem_map.2 ⟨o, ho, rfl⟩
  · rw [(hg o hst).1, htid]

/-- The primary-key invariant survives any id-preserving offer-map. -/
theorem offerIdsNodup_map {db db2 : DB} (g : Offer → Offer)
    (hoff : db2.offers = db.offers.map g) (hg : ∀ o, (g o).id = o.id)
    (h : offerIdsNodup db) : offerIdsNodup db2 := by
  unfold offerIdsNodup at h ⊢
  rw [hoff, List.map_map]
  have hc : ((fun o : Offer => o.id) ∘ g) = fun o : Offer => o.id :=
    funext (fun o => hg o)
  rw [hc]
  exact h

theorem updateOffer_offers_eq (db : DB) (id : Nat) (f : Offer → Offer) :
    (db.updateOffer id f).offers = db.offers.map (fun o => if o.id == id then f o else o) := rfl

theorem awardOfferMap_id (tenderId offerId : Nat) (o : Offer) :
    (awardOfferMap tenderId offerId o).id = o.id := by
  unfold awardOfferMap
  by_cases h : o.id = offerId
  · simp [h]
  · simp only [if_neg (by simpa using h : ¬((o.id == offerId) = true))]
    by_cases h2 : (o.tenderId == tenderId && o.id != offerId && o.status == OfferStatus.SUBMITTED) = true
    · simp [h2]
    · simp [h2]

theorem awardOfferMap_accepted (tenderId offerId : Nat) (o : Offer)
    (h : o.status = .ACCEPTED) :
    (awardOfferMap tenderId offerId o).tenderId = o.tenderId ∧
    (awardOfferMap tenderId offerId o).status = .ACCEPTED := by
  unfold awardOfferMap
  by_cases h1 : o.id = offerId
  · simp [h1, h]
  · simp [h1, h]

theorem any_accepted_of_hasAccepted {db : DB} {tid : Nat} (h : hasAccepted db tid) :
    (db.offersOf tid).any (fun o => o.status == OfferStatus.ACCEPTED) = true := by
  obtain ⟨o, ho, htid, hst⟩ := h
  refine List.any_eq_true.2 ⟨o, ?_, by simp [hst]⟩
  unfold DB.offersOf
  exact List.mem_filter.2 ⟨ho, by simp [htid]⟩

/-- One operation of the post-creation trace preserves the resolved-cascade
invariant: distinct offer ids, the ACCEPTED offer of cascade position i,
and dormancy (DRAFT or CANCELLED) of every cascade position after i. -/
theorem stepOp_preserves (ids : List Nat) (hnd : ids.Nodup) (i : Fin ids.length)
    (db : DB) (op : Op)
    (h1 : offerIdsNodup db) (h2 : hasAccepted db (ids.get i))
    (h3 : ∀ j : Fin ids.length, i.val < j.val → dormant db (ids.get j)) :
    offerIdsNodup (stepOp ids db op) ∧ hasAccepted (stepOp ids db op) (ids.get i) ∧
    ∀ j : Fin ids.length, i.val < j.val → dormant (stepOp ids db op) (ids.get j) := by
  cases op with
  | closeOp id =>
    cases hc : closeTender db id with
    | error e => simpa [stepOp, orKeep, hc] using ⟨h1, h2, h3⟩
    | ok db2 =>
      obtain ⟨t, hft, hst, hdb2⟩ := closeTender_ok hc
      have hstep : stepOp ids db (.closeOp id) = db2 := by simp [stepOp, orKeep, hc]
      rw [hstep, hdb2]
      refine ⟨offerIdsNodup_of_offers_eq rfl h1, hasAccepted_of_offers_eq rfl h2, ?_⟩
      intro j hj
      have hne : ¬id = ids.get j :=
        dormant_ne_of_found (h3 j hj) hft (by simp [hst]) (by simp [hst])
      exact dormant_map_ne (fun u => { u with status := TenderStatus.CLOSED })
        (fun u => rfl) rfl hne (h3 j hj)
  | cancelOp id =>
    cases hc : cancelTender db id with
    | error e => simpa [stepOp, orKeep, hc] using ⟨h1, h2, h3⟩
    | ok db2 =>
      have hdb2 := cancelTender_ok hc
      have hstep : stepOp ids db (.cancelOp id) = db2 := by simp [stepOp, orKeep, hc]
      rw [hstep, hdb2]
      refine ⟨offerIdsNodup_of_offers_eq rfl h1, hasAccepted_of_offers_eq rfl h2, ?_⟩
      intro j hj
      exact dormant_map_cancel rfl (h3 j hj)
  | awardOp tenderId offerId faults =>
    have hstep : stepOp ids db (.awardOp tenderId offerId faults) =
        (award db tenderId offerId faults).1 := rfl
    rw [hstep]
    rcases award_fst_cases db tenderId offerId faults with heq | ⟨t, hft, hst, htens, hoffs⟩
    · rw [heq]
      exact ⟨h1, h2, h3⟩
    · rw [applyAwardTxn_offers] at hoffs
      rw [applyAwardTxn_tenders] at htens
      refine ⟨offerIdsNodup_map _ hoffs (awardOfferMap_id tenderId offerId) h1,
        hasAccepted_map _ hoffs (awardOfferMap_accepted tenderId offerId) h2, ?_⟩
      intro j hj
      have hne : ¬tenderId = ids.get j :=
        dormant_ne_of_found (h3 j hj) hft (by simp [hst]) (by simp [hst])
      exact dormant_map_ne (fun u => { u with status := TenderStatus.AWARDED })
        (fun u => rfl) htens hne (h3 j hj)
  | submitOp now tenderId carrierId dto =>
    cases hc : submitOffer db now tenderId carrierId dto with
    | error e => simpa [stepOp, orKeep, hc] using ⟨h1, h2, h3⟩
    | ok db2 =>
      obtain ⟨existing, hmem, hpend, hdb2⟩ := submitOffer_ok hc
      have hstep : stepOp ids db (.submitOp now tenderId carrierId dto) = db2 := by
        simp [stepOp, orKeep, hc]
      rw [hstep, hdb2]
      refine ⟨offerIdsNodup_map _ (updateOffer_offers_eq db existing.id _)
          (fun o => by by_cases h : o.id = existing.id <;> simp [h]) h1,
        hasAccepted_updateOffer_ne _ h1 existing hmem rfl (by simp [hpend]) h2,
        fun j hj => dormant_of_tenders_eq rfl (h3 j hj)⟩
  | acceptOp offerId =>
    cases hc : acceptOffer db offerId with
    | error e => simpa [stepOp, orKeep, hc] using ⟨h1, h2, h3⟩
    | ok db2 =>
      have hdb2 := acceptOffer_ok hc
      have hstep : stepOp ids db (.acceptOp offerId) = db2 := by
        simp [stepOp, orKeep, hc]
      rw [hstep, hdb2]
      refine ⟨offerIdsNodup_map _ (updateOffer_offers_eq db offerId _)
          (fun o => by by_cases h : o.id = offerId <;> simp [h]) h1,
        hasAccepted_map _ (updateOffer_offers_eq db offerId _) (fun o ho => ?_) h2,
        fun j hj => dormant_of_tenders_eq rfl (h3 j hj)⟩
      by_cases h : o.id = offerId <;> simp [h, ho]
  | rejectOp offerId =>
    cases hc : rejectOffer db offerId with
    | error e => simpa [stepOp, orKeep, hc] using ⟨h1, h2, h3⟩
    | ok db2 =>
      obtain ⟨o, hmem, hid, hsub, hdb2⟩ := rejectOffer_ok hc
      have hstep : stepOp ids db (.rejectOp offerId) = db2 := by
        simp [stepOp, orKeep, hc]
      rw [hstep, hdb2]
      refine ⟨offerIdsNodup_map _ (updateOffer_offers_eq db offerId _)
          (fun x => by by_cases h : x.id = offerId <;> simp [h]) h1,
        hasAccepted_updateOffer_ne _ h1 o hmem hid (by simp [hsub]) h2,
        fun j hj => dormant_of_tenders_eq rfl (h3 j hj)⟩
  | withdrawOp tenderId carrierId =>
    cases hc : withdrawOffer db tenderId carrierId with
    | error e => simpa [stepOp, orKeep, hc] using ⟨h1, h2, h3⟩
    | ok db2 =>
      obtain ⟨o, hmem, hsub, hdb2⟩ := withdrawOffer_ok hc
      have hstep : stepOp ids db (.withdrawOp tenderId carrierId) = db2 := by
        simp [stepOp, orKeep, hc]
      rw [hstep, hdb2]
      refine ⟨offerIdsNodup_map _ (updateOffer_offers_eq db o.id _)
          (fun x => by by_cases h : x.id = o.id <;> simp [h]) h1,
        hasAccepted_updateOffer_ne _ h1 o hmem rfl (by simp [hsub]) h2,
        fun j hj => dormant_of_tenders_eq rfl (h3 j hj)⟩
  | signalOp m sig =>
    cases hm : ids[m]? with
    | none =>
      have hstep : stepOp ids db (.signalOp m sig) = db := by
        simp only [stepOp, List.get?_eq_getElem?, hm]
      rw [hstep]
      exact ⟨h1, h2, h3⟩
    | some c =>
      cases hm2 : ids[m + 1]? with
      | none =>
        have hstep : stepOp ids db (.signalOp m sig) = db := by
          simp only [stepOp, List.get?_eq_getElem?, hm, hm2]
        rw [hstep]
        exact ⟨h1, h2, h3⟩
      | some n =>
        have hstep : stepOp ids db (.signalOp m sig) = handleTenderClosed db c n sig := by
          simp only [stepOp, List.get?_eq_getElem?, hm, hm2]
        rw [hstep]
        by_cases hsig : sig.tenderId = c
        · cases hft : db.findTender c with
          | none =>
            rw [handleTenderClosed_eq_of_none db c n sig hsig hft]
            exact ⟨h1, h2, h3⟩
          | some t =>
            cases hcond : (!(db.offersOf c).any (fun o => o.status == OfferStatus.ACCEPTED) &&
                t.status == TenderStatus.CLOSED) with
            | false =>
              rw [handleTenderClosed_eq_of_not_cond db c n sig t hsig hft hcond]
              exact ⟨h1, h2, h3⟩
            | true =>
              rw [handleTenderClosed_eq_of_cond db c n sig t hsig hft hcond]
              refine ⟨offerIdsNodup_of_offers_eq rfl h1,
                hasAccepted_of_offers_eq rfl h2, ?_⟩
              intro j hj
              obtain ⟨hmlt, hmc⟩ := List.getElem?_eq_some.1 hm
              obtain ⟨hm1lt, hmn⟩ := List.getElem?_eq_some.1 hm2
              have hcond2 : (db.offersOf c).any
                  (fun o => o.status == OfferStatus.ACCEPTED) = false ∧
                  t.status = TenderStatus.CLOSED := by
                simpa [Bool.and_eq_true, Bool.not_eq_true'] using hcond
              have hmi : m < i.val := by
                rcases Nat.lt_trichotomy m i.val with hlt | heqm | hgt
                · exact hlt
                · exfalso
                  have hc_eq : c = ids.get i := by
                    rw [← hmc]
                    show ids.get ⟨m, hmlt⟩ = ids.get i
                    have hfi : i = (⟨m, hmlt⟩ : Fin ids.length) := Fin.ext heqm.symm
                    rw [hfi]
                  have hany := any_accepted_of_hasAccepted h2
                  rw [← hc_eq] at hany
                  rw [hcond2.1] at hany
                  cases hany
                · exfalso
                  exact dormant_ne_of_found (h3 ⟨m, hmlt⟩ hgt) hft
                    (by simp [hcond2.2]) (by simp [hcond2.2]) hmc.symm
              have hne : ¬n = ids.get j := by
                intro he
                have hge : ids.get ⟨m + 1, hm1lt⟩ = n := hmn
                have hfe : (⟨m + 1, hm1lt⟩ : Fin ids.length) = j := by
                  apply (List.Nodup.get_inj_iff hnd).1
                  rw [hge, he]
                have hve : m + 1 = j.val := congrArg Fin.val hfe
                omega
              exact dormant_map_ne (fun u => { u with status := TenderStatus.OPEN })
                (fun u => rfl) rfl hne (h3 j hj)
        · rw [handleTenderClosed_eq_of_other db c n sig hsig]
          exact ⟨h1, h2, h3⟩

theorem runOps_preserves (ids : List Nat) (hnd : ids.Nodup) (i : Fin ids.length)
    (db : DB) (ops : List Op)
    (h1 : offerIdsNodup db) (h2 : hasAccepted db (ids.get i))
    (h3 : ∀ j : Fin ids.length, i.val < j.val → dormant db (ids.get j)) :
    offerIdsNodup (runOps ids db ops) ∧ hasAccepted (runOps ids db ops) (ids.get i) ∧
    ∀ j : Fin ids.length, i.val < j.val → dormant (runOps ids db ops) (ids.get j) := by
  induction ops generalizing db with
  | nil => exact ⟨h1, h2, h3⟩
  | cons op ops ih =>
    obtain ⟨g1, g2, g3⟩ := stepOp_preserves ids hnd i db op h1 h2 h3
    exact ih (stepOp ids db op) g1 g2 g3

/-- C5: (1) on a closing signal for a tender that is CLOSED with no
ACCEPTED offer, the registered next tier transitions DRAFT → OPEN; (2) once
a cascade position i is CLOSED with an ACCEPTED offer while every later
position is still DRAFT (or CANCELLED), no sequence of lifecycle operations
and signal deliveries — the orchestrator's only opening mechanism — ever
makes a later position OPEN. -/
theorem cascade_escalation :
    (∀ (db : DB) (currentId nextId : Nat) (sig : ClosedSignal) (t nt : Tender),
      sig.tenderId = currentId →
      db.findTender currentId = some t → t.status = .CLOSED →
      (db.offersOf currentId).any (fun o => o.status == OfferStatus.ACCEPTED) = false →
      db.findTender nextId = some nt → nt.status = .DRAFT →
      tenderStatusIs (handleTenderClosed db currentId nextId sig) nextId .OPEN) ∧
    (∀ ids : List Nat, ids.Nodup → ∀ i : Fin ids.length, ∀ (db : DB) (ops : List Op),
      offerIdsNodup db → hasAccepted db (ids.get i) →
      (∀ j : Fin ids.length, i.val < j.val → dormant db (ids.get j)) →
      ∀ j : Fin ids.length, i.val < j.val →
        ∀ t ∈ (runOps ids db ops).tenders, t.id = ids.get j → t.status ≠ .OPEN) := by
  constructor
  · intro db currentId nextId sig t nt hsig hft hst hany hfn hnt
    have hcond : (!(db.offersOf currentId).any (fun o => o.status == OfferStatus.ACCEPTED) &&
        t.status == TenderStatus.CLOSED) = true := by
      simp [hany, hst]
    rw [handleTenderClosed_eq_of_cond db currentId nextId sig t hsig hft hcond]
    unfold openNextTier tenderStatusIs DB.updateTender
    exact statusIs_map_const _ _ _
  · intro ids hnd i db ops h1 h2 h3 j hj t ht hid
    obtain ⟨-, -, hdorm⟩ := runOps_preserves ids hnd i db ops h1 h2 h3
    rcases hdorm j hj t ht hid with h | h
    · intro hopen
      rw [hopen] at h
      cases h
    · intro hopen
      rw [hopen] at h
      cases h

/-- Cascade position 0 (tender 1) CLOSED with an ACCEPTED offer; position 1
(tender 2) DRAFT. -/
def resolvedDB : DB :=
  { tenders := [⟨1, 50, none, .CLOSED, .SEQUENTIAL, 0, none, 100⟩,
                ⟨2, 50, none, .DRAFT, .SEQUENTIAL, 1, some 1, 100⟩],
    offers := [⟨10, 1, 20, .ACCEPTED, 900, "USD", 200, some 90⟩,
               ⟨11, 2, 21, .PENDING, 0, "USD", 300, none⟩],
    shipments := [], orders := [50], parties := [], relations := [], nextId := 500 }

theorem cascade_escalation_witness :
    tenderStatusIs (handleTenderClosed seqTrigDB 1 2 ⟨1, .CLOSED⟩) 2 .OPEN ∧
    (∀ t ∈ (runOps [1, 2] resolvedDB [.signalOp 0 ⟨1, .CLOSED⟩]).tenders,
      t.id = [1, 2].get ⟨1, by decide⟩ → t.status ≠ .OPEN) :=
  ⟨cascade_escalation.1 seqTrigDB 1 2 ⟨1, .CLOSED⟩
      ⟨1, 50, none, .CLOSED, .SEQUENTIAL, 0, none, 100⟩
      ⟨2, 50, none, .DRAFT, .SEQUENTIAL, 1, some 1, 100⟩
      (by decide) (by decide) (by decide) (by decide) (by decide) (by decide),
    cascade_escalation.2 [1, 2] (by decide) ⟨0, by decide⟩ resolvedDB
      [.signalOp 0 ⟨1, .CLOSED⟩] (by decide) (by decide) (by decide)
      ⟨1, by decide⟩ (by decide)⟩

/-! The creation-loop invariant behind the cascade-shape claims. -/

theorem lastTier0_append (l : List Tender) (t : Tender) :
    lastTier0 (l ++ [t]) = if t.tier = 0 then some t.id else lastTier0 l := by
  unfold lastTier0
  rw [List.foldl_append]
  rfl

theorem cascadeStep_skip (select : DB → TierRequest → List Nat)
    (statusFor : TierRequest → TenderStatus) (mode : TenderMode)
    (orderId now : Nat) (st : CascadeState) (tc : TierRequest)
    (hsel : (select st.db tc).isEmpty = true) :
    cascadeStep select statusFor mode orderId now st tc = st := by
  unfold cascadeStep
  simp only [hsel, if_true]

theorem cascadeStep_create (select : DB → TierRequest → List Nat)
    (statusFor : TierRequest → TenderStatus) (mode : TenderMode)
    (orderId now : Nat) (st : CascadeState) (tc : TierRequest)
    (hsel : (select st.db tc).isEmpty = false) :
    cascadeStep select statusFor mode orderId now st tc =
      { db := (createTenderAndOffers st.db orderId mode (statusFor tc) tc.tier
          st.parentTenderId (now + tc.offerDeadlineMinutes) (select st.db tc)).1,
        parentTenderId := if tc.tier = 0 then
          some (createTenderAndOffers st.db orderId mode (statusFor tc) tc.tier
            st.parentTenderId (now + tc.offerDeadlineMinutes) (select st.db tc)).2.id
          else st.parentTenderId,
        created := st.created ++ [(createTenderAndOffers st.db orderId mode (statusFor tc)
          tc.tier st.parentTenderId (now + tc.offerDeadlineMinutes) (select st.db tc)).2] } := by
  unfold cascadeStep
  simp only [hsel, Bool.false_eq_true, if_false]

/-- Invariant of the per-tier creation loop: the `parentTenderId` local is
always the id of the last created tier-0 tender; each created tender's
parentTenderId is the last tier-0 id among the tenders created before it;
the status of each created tender is `statusFor` of a request with its
tier; and all carry the loop's mode. -/
theorem cascadeLoop_inv (select : DB → TierRequest → List Nat)
    (statusFor : TierRequest → TenderStatus) (mode : TenderMode)
    (orderId now : Nat)
    (hstat : ∀ tc, statusFor tc =
      if tc.tier = 0 then TenderStatus.OPEN else TenderStatus.DRAFT) :
    ∀ (tiers : List TierRequest) (st : CascadeState),
      st.parentTenderId = lastTier0 st.created →
      (∀ n (hn : n < st.created.length),
        (st.created.get ⟨n, hn⟩).parentTenderId = lastTier0 (st.created.take n)) →
      (∀ t ∈ st.created, (t.status = .OPEN ↔ t.tier = 0) ∧ t.mode = mode) →
      ((tiers.foldl (cascadeStep select statusFor mode orderId now) st).parentTenderId =
        lastTier0 (tiers.foldl (cascadeStep select statusFor mode orderId now) st).created ∧
      (∀ n (hn : n < (tiers.foldl (cascadeStep select statusFor mode orderId now) st).created.length),
        ((tiers.foldl (cascadeStep select statusFor mode orderId now) st).created.get ⟨n, hn⟩).parentTenderId =
          lastTier0 ((tiers.foldl (cascadeStep select statusFor mode orderId now) st).created.take n)) ∧
      (∀ t ∈ (tiers.foldl (cascadeStep select statusFor mode orderId now) st).created,
        (t.status = .OPEN ↔ t.tier = 0) ∧ t.mode = mode)) := by
  intro tiers
  induction tiers with
  | nil => exact fun st hp hidx hall => ⟨hp, hidx, hall⟩
  | cons tc rest ih =>
    intro st hp hidx hall
    rw [List.foldl_cons]
    cases hsel : (select st.db tc).isEmpty with
    | true =>
      rw [cascadeStep_skip select statusFor mode orderId now st tc hsel]
      exact ih st hp hidx hall
    | false =>
      rw [cascadeStep_create select statusFor mode orderId now st tc hsel]
      set tnew := (createTenderAndOffers st.db orderId mode (statusFor tc) tc.tier
        st.parentTenderId (now + tc.offerDeadlineMinutes) (select st.db tc)).2 with htnew
      have htfields : tnew.tier = tc.tier ∧ tnew.parentTenderId = st.parentTenderId ∧
          tnew.status = statusFor tc ∧ tnew.mode = mode := ⟨rfl, rfl, rfl, rfl⟩
      apply ih
      · show (if tc.tier = 0 then some tnew.id else st.parentTenderId) =
          lastTier0 (st.created ++ [tnew])
        rw [lastTier0_append, htfields.1, hp]
      · intro n hn
        show (List.get (st.created ++ [tnew]) ⟨n, hn⟩).parentTenderId =
          lastTier0 ((st.created ++ [tnew]).take n)
        rcases Nat.lt_or_ge n st.created.length with hlt | hge
        · rw [List.get_append _ hlt, List.take_append_of_le_length (Nat.le_of_lt hlt)]
          exact hidx n hlt
        · have hlen : n < st.created.length + 1 := by simpa using hn
          have hneq : n = st.created.length := by omega
          subst hneq
          rw [List.take_left]
          have hlast : List.get (st.created ++ [tnew])
              ⟨st.created.length, hn⟩ = tnew := by
            simp [List.get_eq_getElem]
          rw [hlast, htfields.2.1, hp]
      · intro t ht
        rcases List.mem_append.1 ht with hmem | hmem
        · exact hall t hmem
        · have : t = tnew := by simpa using hmem
          subst this
          refine ⟨?_, htfields.2.2.2⟩
          rw [htfields.2.2.1, hstat tc, htfields.1]
          by_cases h0 : tc.tier = 0
          · simp [h0]
          · simp [h0]

/-- C4 (amended): in a SEQUENTIAL cascade, a created tender is OPEN exactly
when its tier is 0 — so when the request contains no tier-0 entry, nothing
opens — and every created tender's parentTenderId is the id of the most
recently created tier-0 tender before it (none when there is none): the
created tenders all point at the tier-0 root rather than chaining
tier i → tier i−1. -/
theorem sequential_cascade_shape (db : DB) (now orderId : Nat)
    (tiers : List TierRequest) (carrierTiers : List TierCarriers) :
    (∀ t ∈ (createSequentialTenders db now orderId tiers carrierTiers).created,
      (t.status = .OPEN ↔ t.tier = 0) ∧ t.mode = .SEQUENTIAL) ∧
    (∀ n (hn : n < (createSequentialTenders db now orderId tiers carrierTiers).created.length),
      ((createSequentialTenders db now orderId tiers carrierTiers).created.get
          ⟨n, hn⟩).parentTenderId =
        lastTier0 ((createSequentialTenders db now orderId tiers carrierTiers).created.take n)) := by
  have h := cascadeLoop_inv (cascadeSelect carrierTiers)
    (fun tc => if tc.tier = 0 then .OPEN else .DRAFT) .SEQUENTIAL orderId now
    (fun tc => rfl) tiers { db := db, parentTenderId := none, created := [] }
    rfl (fun n hn => by cases hn) (fun t ht => by cases ht)
  exact ⟨h.2.2, h.2.1⟩

theorem sequential_cascade_shape_witness :
    ((createSequentialTenders graphDB 0 50 threeTierReq
        (getCarriersByTier graphDB 30)).created.get ⟨2, by decide⟩).parentTenderId =
      lastTier0 ((createSequentialTenders graphDB 0 50 threeTierReq
        (getCarriersByTier graphDB 30)).created.take 2) :=
  (sequential_cascade_shape graphDB 0 50 threeTierReq
    (getCarriersByTier graphDB 30)).2 2 (by decide)

/-! The skip-versus-error behaviour of the two cascade-creation paths. -/

theorem cascadeStep_relations (select : DB → TierRequest → List Nat)
    (statusFor : TierRequest → TenderStatus) (mode : TenderMode)
    (orderId now : Nat) (st : CascadeState) (tc : TierRequest) :
    (cascadeStep select statusFor mode orderId now st tc).db.relations = st.db.relations := by
  cases hsel : (select st.db tc).isEmpty with
  | true => rw [cascadeStep_skip select statusFor mode orderId now st tc hsel]
  | false =>
    rw [cascadeStep_create select statusFor mode orderId now st tc hsel]
    rfl

/-- The tiers of the created tenders are exactly the tiers of the requests
whose carrier selection (against the initial store) is non-empty, in
request order. -/
theorem cascadeLoop_created_tiers (select : DB → TierRequest → List Nat)
    (statusFor : TierRequest → TenderStatus) (mode : TenderMode) (orderId now : Nat)
    (hsel : ∀ db1 db2 tc, db1.relations = db2.relations → select db1 tc = select db2 tc) :
    ∀ (tiers : List TierRequest) (st : CascadeState),
      (tiers.foldl (cascadeStep select statusFor mode orderId now) st).created.map
          (fun t => t.tier) =
        st.created.map (fun t => t.tier) ++
          (tiers.filter (fun tc => !(select st.db tc).isEmpty)).map (fun tc => tc.tier) ∧
      (tiers.foldl (cascadeStep select statusFor mode orderId now) st).db.relations =
        st.db.relations := by
  intro tiers
  induction tiers with
  | nil => intro st; simp
  | cons tc rest ih =>
    intro st
    rw [List.foldl_cons]
    have hrel := cascadeStep_relations select statusFor mode orderId now st tc
    obtain ⟨ih1, ih2⟩ := ih (cascadeStep select statusFor mode orderId now st tc)
    have hfilter : rest.filter (fun tc2 =>
        !(select (cascadeStep select statusFor mode orderId now st tc).db tc2).isEmpty) =
        rest.filter (fun tc2 => !(select st.db tc2).isEmpty) := by
      apply List.filter_congr
      intro tc2 _
      rw [hsel _ _ tc2 hrel]
    cases hempty : (select st.db tc).isEmpty with
    | true =>
      rw [cascadeStep_skip select statusFor mode orderId now st tc hempty] at ih1 ih2 ⊢
      refine ⟨?_, ih2⟩
      rw [ih1]
      congr 1
      rw [List.filter_cons]
      simp [hempty]
    | false =>
      refine ⟨?_, by rw [ih2, hrel]⟩
      rw [ih1, hfilter]
      rw [cascadeStep_create select statusFor mode orderId now st tc hempty]
      simp only [List.map_append, List.filter_cons, hempty, Bool.not_false, if_true]
      simp [List.append_assoc]
      rfl

/-- `validateTierConfiguration` throws whenever some requested tier is
absent from the resolved carrier tiers. -/
theorem validateTier_some_of_missing (avail : List TierCarriers) :
    ∀ (tiers : List TierRequest) (tc : TierRequest), tc ∈ tiers →
      avail.find? (fun ct => ct.tier == tc.tier) = none →
      ∃ e, validateTierConfiguration tiers avail = some e := by
  intro tiers
  induction tiers with
  | nil => intro tc htc; cases htc
  | cons hd rest ih =>
    intro tc htc hfind
    unfold validateTierConfiguration
    cases hf : avail.find? (fun ct => ct.tier == hd.tier) with
    | none => exact ⟨_, rfl⟩
    | some available =>
      rcases List.mem_cons.1 htc with heq | hmem
      · rw [heq] at hfind
        rw [hfind] at hf
        cases hf
      · obtain ⟨e, he⟩ := ih tc hmem hfind
        show ∃ e2, (if 0 < hd.carrierIds.length then
            if (hd.carrierIds.filter (fun cid => !(available.carriers.contains cid))).length > 0 then
              some (TErr.badRequest "Invalid carrier IDs for tier")
            else validateTierConfiguration rest avail
          else validateTierConfiguration rest avail) = some e2
        by_cases hlen : 0 < hd.carrierIds.length
        · by_cases hinv : (hd.carrierIds.filter
              (fun cid => !(available.carriers.contains cid))).length > 0
          · refine ⟨TErr.badRequest "Invalid carrier IDs for tier", ?_⟩
            rw [if_pos hlen, if_pos hinv]
          · refine ⟨e, ?_⟩
            rw [if_pos hlen, if_neg hinv]
            exact he
        · refine ⟨e, ?_⟩
          rw [if_neg hlen]
          exact he

theorem simpleSelect_congr (brokerId : Nat) (db1 db2 : DB) (tc : TierRequest)
    (h : db1.relations = db2.relations) :
    simpleSelect brokerId db1 tc = simpleSelect brokerId db2 tc := by
  unfold simpleSelect activeCarrierRelations
  rw [h]

/-- C6 (amended): the two cascade-creation paths treat an empty tier
differently. In the simple `createCascade`, a TierRequest whose eligible
carrier set is empty is silently skipped — the call succeeds and the
created tenders are exactly those of the requests with a non-empty
selection, in order. In `CascadeTenderService.createCascadeTenders`, a
requested tier with no carriers in the resolved tiers makes the whole
call fail with an error instead. -/
theorem empty_tier_handling :
    (∀ (db : DB) (now brokerId : Nat) (request : CascadeRequest),
      request.orderId ∈ db.orders →
      (∃ out, createCascadeSimple db now brokerId request = .ok out) ∧
      (∀ out, createCascadeSimple db now brokerId request = .ok out →
        out.2.createdTenders.map (fun t => t.tier) =
          (request.tiers.filter (fun tc => !(simpleSelect brokerId db tc).isEmpty)).map
            (fun tc => tc.tier))) ∧
    (∀ (db : DB) (now brokerId : Nat) (request : CascadeRequest) (tc : TierRequest),
      tc ∈ request.tiers →
      (getCarriersByTier db brokerId).find? (fun ct => ct.tier == tc.tier) = none →
      ∃ e, createCascadeTenders db now brokerId request = .error e) := by
  constructor
  · intro db now brokerId request horder
    have hc : db.orders.contains request.orderId = true :=
      List.elem_eq_true_of_mem horder
    constructor
    · cases hres : createCascadeSimple db now brokerId request with
      | ok out => exact ⟨out, rfl⟩
      | error e =>
        unfold createCascadeSimple at hres
        rw [hc] at hres
        simp at hres
    · intro out hres
      unfold createCascadeSimple at hres
      rw [hc] at hres
      simp only [Bool.not_true, Bool.false_eq_true, if_false, Except.ok.injEq] at hres
      obtain ⟨h1, _⟩ := cascadeLoop_created_tiers (simpleSelect brokerId)
        (fun tc => if tc.tier = 0 ∨ request.mode = .PARALLEL then .OPEN else .DRAFT)
        request.mode request.orderId now
        (fun db1 db2 tc h => simpleSelect_congr brokerId db1 db2 tc h)
        request.tiers { db := db, parentTenderId := none, created := [] }
      rw [← hres]
      simpa using h1
  · intro db now brokerId request tc htc hfind
    obtain ⟨e, he⟩ := validateTier_some_of_missing (getCarriersByTier db brokerId)
      request.tiers tc htc hfind
    unfold createCascadeTenders
    by_cases horder : db.orders.contains request.orderId = true
    · rw [horder]
      simp only [Bool.not_true, Bool.false_eq_true, if_false]
      rw [he]
      exact ⟨e, rfl⟩
    · have hfalse : db.orders.contains request.orderId = false := Bool.eq_false_iff.2 horder
      rw [hfalse]
      exact ⟨_, rfl⟩

theorem empty_tier_handling_witness :
    (∃ out, createCascadeSimple graphDB 0 30
        ⟨50, .SEQUENTIAL, [⟨0, [], 60⟩, ⟨5, [], 60⟩]⟩ = .ok out) ∧
    (∀ out, createCascadeSimple graphDB 0 30
        ⟨50, .SEQUENTIAL, [⟨0, [], 60⟩, ⟨5, [], 60⟩]⟩ = .ok out →
      out.2.createdTenders.map (fun t => t.tier) =
        (([⟨0, [], 60⟩, ⟨5, [], 60⟩] : List TierRequest).filter
          (fun tc => !(simpleSelect 30 graphDB tc).isEmpty)).map (fun tc => tc.tier)) :=
  empty_tier_handling.1 graphDB 0 30 ⟨50, .SEQUENTIAL, [⟨0, [], 60⟩, ⟨5, [], 60⟩]⟩
    (by decide)

/-! The tier resolver: ordering, de-duplication and contents. -/

theorem mem_insertTier (x n : Nat) (l : List Nat) :
    x ∈ insertTier n l ↔ x = n ∨ x ∈ l := by
  induction l with
  | nil => simp [insertTier]
  | cons m ms ih =>
    unfold insertTier
    by_cases h1 : n < m
    · rw [if_pos h1]
      simp [List.mem_cons]
    · rw [if_neg h1]
      by_cases h2 : n = m
      · rw [if_pos h2]
        subst h2
        simp only [List.mem_cons]
        tauto
      · rw [if_neg h2]
        simp only [List.mem_cons, ih]
        tauto

theorem insertTier_pairwise (n : Nat) (l : List Nat)
    (h : l.Pairwise (· < ·)) : (insertTier n l).Pairwise (· < ·) := by
  induction l with
  | nil => simp [insertTier]
  | cons m ms ih =>
    rw [List.pairwise_cons] at h
    obtain ⟨hm, hms⟩ := h
    unfold insertTier
    by_cases h1 : n < m
    · rw [if_pos h1]
      refine List.Pairwise.cons ?_ (List.Pairwise.cons hm hms)
      intro x hx
      rcases List.mem_cons.1 hx with rfl | hx2
      · exact h1
      · exact h1.trans (hm x hx2)
    · rw [if_neg h1]
      by_cases h2 : n = m
      · rw [if_pos h2]
        exact List.Pairwise.cons hm hms
      · rw [if_neg h2]
        refine List.Pairwise.cons ?_ (ih hms)
        intro x hx
        rcases (mem_insertTier x n ms).1 hx with rfl | hx2
        · omega
        · exact hm x hx2

theorem sortedTiers_pairwise (l : List Nat) : (sortedTiers l).Pairwise (· < ·) := by
  unfold sortedTiers
  induction l with
  | nil => simp
  | cons a as ih => exact insertTier_pairwise a _ ih

theorem mem_sortedTiers (x : Nat) (l : List Nat) : x ∈ sortedTiers l ↔ x ∈ l := by
  unfold sortedTiers
  induction l with
  | nil => simp
  | cons a as ih =>
    rw [List.foldr_cons, mem_insertTier, ih, List.mem_cons]

instance (db : DB) : Decidable (relationsUnique db) := by
  unfold relationsUnique; infer_instance

/-- C7 (amended): `getCarriersByTier` returns the broker's active
BROKER_CARRIER carriers grouped by strictly ascending tier; under the
table's unique index on (fromPartyId, toPartyId, relationType) no carrier
is duplicated within a tier; every listed carrier comes from a matching
edge and every matching edge is listed; and a broker with no active
carrier edge — in particular an unknown broker — yields the empty list
rather than a NotFound failure. -/
theorem tier_resolver_spec (db : DB) (brokerId : Nat) :
    ((getCarriersByTier db brokerId).map (fun g => g.tier)).Pairwise (· < ·) ∧
    (relationsUnique db → ∀ g ∈ getCarriersByTier db brokerId, g.carriers.Nodup) ∧
    (∀ g ∈ getCarriersByTier db brokerId, ∀ c ∈ g.carriers,
      ∃ r ∈ db.relations, r.fromPartyId = brokerId ∧ r.relationType = .BROKER_CARRIER ∧
        r.status = .ACTIVE ∧ r.tier = g.tier ∧ r.toPartyId = c) ∧
    (∀ r ∈ db.relations, r.fromPartyId = brokerId → r.relationType = .BROKER_CARRIER →
      r.status = .ACTIVE → ∃ g ∈ getCarriersByTier db brokerId,
        g.tier = r.tier ∧ r.toPartyId ∈ g.carriers) ∧
    ((∀ r ∈ db.relations, ¬(r.fromPartyId = brokerId ∧ r.relationType = .BROKER_CARRIER ∧
        r.status = .ACTIVE)) → getCarriersByTier db brokerId = []) := by
  refine ⟨?_, ?_, ?_, ?_, ?_⟩
  · have hmap : (getCarriersByTier db brokerId).map (fun g => g.tier) =
        sortedTiers ((activeCarrierRelations db brokerId).map (fun r => r.tier)) := by
      unfold getCarriersByTier
      rw [List.map_map]
      exact List.map_id' _
    rw [hmap]
    exact sortedTiers_pairwise _
  · intro huniq g hg
    unfold getCarriersByTier at hg
    obtain ⟨tv, htv, rfl⟩ := List.mem_map.1 hg
    show ((((activeCarrierRelations db brokerId).filter
      (fun r => r.tier == tv)).map (fun r => r.toPartyId)).Nodup)
    rw [List.Nodup, List.pairwise_map]
    have hpw : (activeCarrierRelations db brokerId).Pairwise (fun a b =>
        ¬(a.fromPartyId = b.fromPartyId ∧ a.toPartyId = b.toPartyId ∧
          a.relationType = b.relationType)) := List.Pairwise.filter _ huniq
    have hpw2 := List.Pairwise.filter (fun r => r.tier == tv) hpw
    refine List.Pairwise.imp_of_mem ?_ hpw2
    intro a b ha hb hab
    have hamem := List.mem_filter.1 ha
    have hbmem := List.mem_filter.1 hb
    have ha2 := List.mem_filter.1 hamem.1
    have hb2 := List.mem_filter.1 hbmem.1
    simp only [Bool.and_eq_true, beq_iff_eq] at ha2 hb2
    intro he
    exact hab ⟨ha2.2.1.1.trans hb2.2.1.1.symm, he, ha2.2.1.2.trans hb2.2.1.2.symm⟩
  · intro g hg c hc
    unfold getCarriersByTier at hg
    obtain ⟨tv, htv, rfl⟩ := List.mem_map.1 hg
    obtain ⟨r, hr, rfl⟩ := List.mem_map.1 hc
    have hrf := List.mem_filter.1 hr
    have hra := List.mem_filter.1 hrf.1
    simp only [Bool.and_eq_true, beq_iff_eq] at hra hrf
    exact ⟨r, hra.1, hra.2.1.1, hra.2.1.2, hra.2.2, hrf.2, rfl⟩
  · intro r hr hfrom htyp hstat
    have hmem : r ∈ activeCarrierRelations db brokerId := by
      unfold activeCarrierRelations
      refine List.mem_filter.2 ⟨hr, ?_⟩
      simp [hfrom, htyp, hstat]
    have htier : r.tier ∈ sortedTiers ((activeCarrierRelations db brokerId).map
        (fun r => r.tier)) := by
      rw [mem_sortedTiers]
      exact List.mem_map.2 ⟨r, hmem, rfl⟩
    refine ⟨{ tier := r.tier, carriers := ((activeCarrierRelations db brokerId).filter
        (fun r2 => r2.tier == r.tier)).map (fun r2 => r2.toPartyId) }, ?_, rfl, ?_⟩
    · unfold getCarriersByTier
      exact List.mem_map.2 ⟨r.tier, htier, rfl⟩
    · refine List.mem_map.2 ⟨r, ?_, rfl⟩
      exact List.mem_filter.2 ⟨hmem, by simp⟩
  · intro hnone
    have h0 : activeCarrierRelations db brokerId = [] := by
      unfold activeCarrierRelations
      rw [List.filter_eq_nil]
      intro a ha
      have := hnone a ha
      simp only [Bool.and_eq_true, beq_iff_eq]
      intro hcontra
      exact this ⟨hcontra.1.1, hcontra.1.2, hcontra.2⟩
    unfold getCarriersByTier
    rw [h0]
    rfl

theorem tier_resolver_spec_witness :
    ∀ g ∈ getCarriersByTier graphDB 30, g.carriers.Nodup :=
  (tier_resolver_spec graphDB 30).2.1 (by decide)

end TMS
